import Mathlib

/-
Verification of the tars-swarm orchestration core.

The development shallowly embeds the TypeScript sources:
  src/core/swarm.ts   (Swarm.run, Swarm.runWithStream, Swarm.handleToolCalls,
                       Swarm.handleFunctionResult, Swarm.serializeResult,
                       Swarm.getChatCompletion)
  src/core/agent.ts   (Agent.getInstructions, Agent.validateInput,
                       Agent.validateOutput)
  src/core/result.ts  (Result)
  src/tracing/index.ts (Tracer.addEvent, Tracer.clear, Tracer.getEvents,
                       Tracer.exportToJson)

Dynamic JavaScript values that flow through the orchestrator (context
variables, tool arguments, trace payloads) are modelled by an inductive
`Json` type; `JSON.stringify` / `JSON.parse` are modelled by an executable
serializer and a fuel-based recursive-descent parser over `List Char`.
JavaScript numbers appearing in the modelled code paths are integers
(`Date.now()` timestamps and parsed tool arguments), so `Json.num` carries
an `Int`.  `JSON.stringify(x, null, 2)` only inserts insignificant
whitespace relative to the compact rendering; the serializer here is
compact and the parser skips whitespace exactly where `JSON.parse` does,
so the round-trip behaviour is unaffected.
-/

/-- JSON value, the model of a JavaScript value travelling through the
orchestrator (context-variable values, parsed tool arguments, trace event
payloads). -/
inductive Json where
  | null : Json
  | bool (b : Bool) : Json
  | num (n : Int) : Json
  | str (s : String) : Json
  | arr (elems : List Json) : Json
  | obj (fields : List (String × Json)) : Json

/-- Opening-brace character (code point 123). -/
def lbraceChar : Char := Char.ofNat 123

/-- Closing-brace character (code point 125). -/
def rbraceChar : Char := Char.ofNat 125

/-- Decimal digit character for a digit value. -/
def decChar (d : Nat) : Char := Char.ofNat (48 + d)

/-- Lower-case hexadecimal digit character, as produced by
JSON.stringify's \u escapes. -/
def hexDigitChar (d : Nat) : Char := Char.ofNat (if d < 10 then 48 + d else 87 + d)

/-- One character of a JSON string literal, escaped the way JSON.stringify
escapes it: quote, backslash, the named control escapes b t n f r, and
\u00xx for the remaining control characters. -/
def escapeChar (c : Char) : List Char :=
  if c = '"' then ['\\', '"']
  else if c = '\\' then ['\\', '\\']
  else if c = '\n' then ['\\', 'n']
  else if c = '\t' then ['\\', 't']
  else if c = '\r' then ['\\', 'r']
  else if c = Char.ofNat 8 then ['\\', 'b']
  else if c = Char.ofNat 12 then ['\\', 'f']
  else if c.toNat < 32 then
    ['\\', 'u', '0', '0', hexDigitChar (c.toNat / 16), hexDigitChar (c.toNat % 16)]
  else [c]

/-- Escape a whole string body (without the surrounding quotes). -/
def escapeString (s : List Char) : List Char := s.flatMap escapeChar

/-- Decimal rendering of a natural number, most significant digit first. -/
def printNat (m : Nat) : List Char :=
  if m = 0 then ['0'] else (Nat.digits 10 m).reverse.map decChar

/-- Decimal rendering of an integer, as JavaScript renders integral
numbers. -/
def printInt : Int → List Char
  | Int.ofNat m => printNat m
  | Int.negSucc m => '-' :: printNat (m + 1)

mutual

/-- Compact serialization of a JSON value; the model of JSON.stringify
(the indent argument of JSON.stringify(·, null, 2) only adds whitespace
that JSON.parse ignores). -/
def printJson : Json → List Char
  | Json.null => ['n', 'u', 'l', 'l']
  | Json.bool true => ['t', 'r', 'u', 'e']
  | Json.bool false => ['f', 'a', 'l', 's', 'e']
  | Json.num n => printInt n
  | Json.str s => '"' :: (escapeString s.data ++ ['"'])
  | Json.arr xs => '[' :: (printElems xs ++ [']'])
  | Json.obj fs => lbraceChar :: (printFields fs ++ [rbraceChar])

/-- Serialize array elements, comma separated. -/
def printElems : List Json → List Char
  | [] => []
  | [x] => printJson x
  | x :: y :: ys => printJson x ++ ',' :: printElems (y :: ys)

/-- Serialize object fields, comma separated, each as "key":value. -/
def printFields : List (String × Json) → List Char
  | [] => []
  | [(k, v)] => '"' :: (escapeString k.data ++ '"' :: ':' :: printJson v)
  | (k, v) :: f :: fs =>
    ('"' :: (escapeString k.data ++ '"' :: ':' :: printJson v)) ++ ',' :: printFields (f :: fs)

end

/-- Whitespace characters skipped by JSON.parse. -/
def isWsChar (c : Char) : Bool := c = ' ' || c = '\t' || c = '\n' || c = '\r'

/-- Drop leading JSON whitespace. -/
def skipWs : List Char → List Char
  | [] => []
  | c :: cs => if isWsChar c then skipWs cs else c :: cs

/-- Numeric value of one hexadecimal digit character. -/
def hexVal (c : Char) : Option Nat :=
  if 48 ≤ c.toNat ∧ c.toNat ≤ 57 then some (c.toNat - 48)
  else if 97 ≤ c.toNat ∧ c.toNat ≤ 102 then some (c.toNat - 87)
  else if 65 ≤ c.toNat ∧ c.toNat ≤ 70 then some (c.toNat - 55)
  else none

/-- Parse the body of a JSON string literal up to the closing quote,
undoing the escapes; fuel-based recursion. -/
def parseStringBody : Nat → List Char → Option (List Char × List Char)
  | 0, _ => none
  | _ + 1, [] => none
  | fuel + 1, c :: cs =>
    if c = '"' then some ([], cs)
    else if c = '\\' then
      match cs with
      | [] => none
      | e :: cs2 =>
        if e = '"' then (parseStringBody fuel cs2).map (fun p => ('"' :: p.1, p.2))
        else if e = '\\' then (parseStringBody fuel cs2).map (fun p => ('\\' :: p.1, p.2))
        else if e = '/' then (parseStringBody fuel cs2).map (fun p => ('/' :: p.1, p.2))
        else if e = 'n' then (parseStringBody fuel cs2).map (fun p => ('\n' :: p.1, p.2))
        else if e = 't' then (parseStringBody fuel cs2).map (fun p => ('\t' :: p.1, p.2))
        else if e = 'r' then (parseStringBody fuel cs2).map (fun p => ('\r' :: p.1, p.2))
        else if e = 'b' then (parseStringBody fuel cs2).map (fun p => (Char.ofNat 8 :: p.1, p.2))
        else if e = 'f' then (parseStringBody fuel cs2).map (fun p => (Char.ofNat 12 :: p.1, p.2))
        else if e = 'u' then
          match cs2 with
          | h1 :: h2 :: h3 :: h4 :: cs3 =>
            match hexVal h1, hexVal h2, hexVal h3, hexVal h4 with
            | some a, some b, some c2, some d =>
              (parseStringBody fuel cs3).map
                (fun p => (Char.ofNat (((a * 16 + b) * 16 + c2) * 16 + d) :: p.1, p.2))
            | _, _, _, _ => none
          | _ => none
        else none
    else (parseStringBody fuel cs).map (fun p => (c :: p.1, p.2))

/-- Digit-string to natural number. -/
def digitsToNat (ds : List Char) : Nat :=
  ds.foldl (fun a c => a * 10 + (c.toNat - 48)) 0

/-- Parse a maximal nonempty run of decimal digits. -/
def parseNum (cs : List Char) : Option (Nat × List Char) :=
  let ds := cs.takeWhile (fun c => c.isDigit)
  let rest := cs.dropWhile (fun c => c.isDigit)
  if ds = [] then none else some (digitsToNat ds, rest)

/-- Check that the input starts with the given literal characters. -/
def expectLit (lit : List Char) (v : Json) (cs : List Char) : Option (Json × List Char) :=
  if cs.take lit.length = lit then some (v, cs.drop lit.length) else none

/-- Dispatch on the first significant character of a JSON value.  The
sub-parsers for strings, array tails and object tails are passed in so
that this definition is not recursive. -/
def parseDispatch
    (pStr : List Char → Option (List Char × List Char))
    (pElems : List Char → Option (List Json × List Char))
    (pFields : List Char → Option (List (String × Json) × List Char))
    (c : Char) (cs : List Char) : Option (Json × List Char) :=
  if c = 'n' then expectLit ['u', 'l', 'l'] Json.null cs
  else if c = 't' then expectLit ['r', 'u', 'e'] (Json.bool true) cs
  else if c = 'f' then expectLit ['a', 'l', 's', 'e'] (Json.bool false) cs
  else if c = '"' then (pStr cs).map (fun p => (Json.str (String.mk p.1), p.2))
  else if c = '[' then
    match skipWs cs with
    | [] => none
    | c2 :: cs2 =>
      if c2 = ']' then some (Json.arr [], cs2)
      else (pElems (c2 :: cs2)).map (fun p => (Json.arr p.1, p.2))
  else if c = lbraceChar then
    match skipWs cs with
    | [] => none
    | c2 :: cs2 =>
      if c2 = rbraceChar then some (Json.obj [], cs2)
      else (pFields (c2 :: cs2)).map (fun p => (Json.obj p.1, p.2))
  else if c = '-' then
    match parseNum cs with
    | some (n, rest) => some (Json.num (-(n : Int)), rest)
    | none => none
  else if c.isDigit then (parseNum (c :: cs)).map (fun p => (Json.num (p.1 : Int), p.2))
  else none

mutual

/-- Fuel-based recursive-descent parser for one JSON value; the model of
JSON.parse. -/
def parseVal : Nat → List Char → Option (Json × List Char)
  | 0, _ => none
  | fuel + 1, cs =>
    match skipWs cs with
    | [] => none
    | c :: cs' => parseDispatch (parseStringBody fuel) (parseElems fuel) (parseFields fuel) c cs'

/-- Parse the elements of a nonempty array, after the opening bracket. -/
def parseElems : Nat → List Char → Option (List Json × List Char)
  | 0, _ => none
  | fuel + 1, cs =>
    match parseVal fuel cs with
    | none => none
    | some (v, rest) =>
      match skipWs rest with
      | [] => none
      | c :: rest' =>
        if c = ',' then (parseElems fuel rest').map (fun p => (v :: p.1, p.2))
        else if c = ']' then some ([v], rest')
        else none

/-- Parse the fields of a nonempty object, after the opening brace. -/
def parseFields : Nat → List Char → Option (List (String × Json) × List Char)
  | 0, _ => none
  | fuel + 1, cs =>
    match skipWs cs with
    | [] => none
    | c :: r =>
      if c = '"' then
        match parseStringBody fuel r with
        | none => none
        | some (k, r2) =>
          match skipWs r2 with
          | [] => none
          | c2 :: r3 =>
            if c2 = ':' then
              match parseVal fuel r3 with
              | none => none
              | some (v, r4) =>
                match skipWs r4 with
                | [] => none
                | c3 :: r5 =>
                  if c3 = ',' then
                    (parseFields fuel r5).map (fun p => ((String.mk k, v) :: p.1, p.2))
                  else if c3 = rbraceChar then some ([(String.mk k, v)], r5)
                  else none
            else none
      else none

end

/-- The model of JSON.parse: parse a complete JSON document, rejecting
trailing garbage; errors model the SyntaxError thrown by JSON.parse. -/
def jsonParse (s : String) : Except String Json :=
  match parseVal (s.data.length + 1) s.data with
  | some (j, rest) =>
    if skipWs rest = [] then Except.ok j
    else Except.error "Unexpected non-whitespace character after JSON data"
  | none => Except.error "Unexpected token in JSON"

/-- True when the input does not begin with a decimal digit, so that a
completed number literal in front of it cannot absorb more characters. -/
def headNotDigit : List Char → Bool
  | [] => true
  | c :: _ => !c.isDigit

mutual

/-- Fuel sufficient for `parseVal` to parse the serialization of a value. -/
def budget : Json → Nat
  | Json.null => 1
  | Json.bool _ => 1
  | Json.num _ => 1
  | Json.str s => s.data.length + 2
  | Json.arr xs => 1 + budgetElems xs
  | Json.obj fs => 1 + budgetFields fs

/-- Fuel sufficient for `parseElems` on serialized array elements. -/
def budgetElems : List Json → Nat
  | [] => 1
  | x :: xs => 1 + max (budget x) (budgetElems xs)

/-- Fuel sufficient for `parseFields` on serialized object fields. -/
def budgetFields : List (String × Json) → Nat
  | [] => 1
  | (k, v) :: fs => 1 + max (k.data.length + 1) (max (budget v) (budgetFields fs))

end

/-- Trace event kind: the closed enum of src/core/types.ts
(TraceEvent.type). -/
inductive EventType where
  | agent_start : EventType
  | agent_end : EventType
  | function_call : EventType
  | function_return : EventType
  | handoff : EventType
  | guardrail_check : EventType
  | model_call : EventType
deriving DecidableEq

/-- The string stored in a serialized trace for each event kind. -/
def EventType.toStr : EventType → String
  | EventType.agent_start => "agent_start"
  | EventType.agent_end => "agent_end"
  | EventType.function_call => "function_call"
  | EventType.function_return => "function_return"
  | EventType.handoff => "handoff"
  | EventType.guardrail_check => "guardrail_check"
  | EventType.model_call => "model_call"

/-- Recover an event kind from its serialized string. -/
def EventType.fromStr (s : String) : Option EventType :=
  if s = "agent_start" then some EventType.agent_start
  else if s = "agent_end" then some EventType.agent_end
  else if s = "function_call" then some EventType.function_call
  else if s = "function_return" then some EventType.function_return
  else if s = "handoff" then some EventType.handoff
  else if s = "guardrail_check" then some EventType.guardrail_check
  else if s = "model_call" then some EventType.model_call
  else none

/-- TraceEvent of src/core/types.ts: timestamp (Date.now()), type, data. -/
structure TraceEvent where
  timestamp : Nat
  type : EventType
  data : Json

/-- Tracer of src/tracing/index.ts.  The field `now` models the wall
clock read by Date.now(); it advances by one per recorded event so that
timestamps are well defined in the model. -/
structure Tracer where
  events : List TraceEvent
  enabled : Bool
  now : Nat

/-- Tracer.addEvent: appends {timestamp: Date.now(), type, data} when
enabled, otherwise does nothing. -/
def Tracer.addEvent (t : Tracer) (type : EventType) (data : Json) : Tracer :=
  if t.enabled then
    { events := t.events ++ [{ timestamp := t.now, type := type, data := data }],
      enabled := t.enabled, now := t.now + 1 }
  else t

/-- Tracer.clear: drops all recorded events. -/
def Tracer.clear (t : Tracer) : Tracer :=
  { events := [], enabled := t.enabled, now := t.now }

/-- Tracer.getEvents returns (a copy of) the event list. -/
def Tracer.getEvents (t : Tracer) : List TraceEvent := t.events

/-- The JSON object JSON.stringify produces for one trace event. -/
def eventToJson (e : TraceEvent) : Json :=
  Json.obj [("timestamp", Json.num (e.timestamp : Int)),
            ("type", Json.str e.type.toStr),
            ("data", e.data)]

/-- Tracer.exportToJson: JSON.stringify(this.events, null, 2). -/
def Tracer.exportToJson (t : Tracer) : String :=
  String.mk (printJson (Json.arr (t.events.map eventToJson)))

/-- Interpret one parsed JSON object as a trace event. -/
def jsonToEvent : Json → Option TraceEvent
  | Json.obj [("timestamp", Json.num (Int.ofNat ts)), ("type", Json.str tys), ("data", d)] =>
    (EventType.fromStr tys).map (fun ty => { timestamp := ts, type := ty, data := d })
  | _ => none

/-- Decode a list of parsed JSON objects into trace events. -/
def decodeEvents : List Json → Option (List TraceEvent)
  | [] => some []
  | j :: js =>
    match jsonToEvent j with
    | some e => (decodeEvents js).map (fun es => e :: es)
    | none => none

/-- Interpret a parsed JSON document as a list of trace events. -/
def jsonToEvents : Json → Option (List TraceEvent)
  | Json.arr xs => decodeEvents xs
  | _ => none

/-- Re-parse an exported trace: JSON.parse followed by reading the
events back. -/
def reparseTrace (s : String) : Option (List TraceEvent) :=
  match jsonParse s with
  | Except.ok j => jsonToEvents j
  | Except.error _ => none

/-- JavaScript object used as a string-keyed map (context variables,
parsed tool arguments): a key-value list in insertion order. -/
abbrev ObjMap : Type := List (String × Json)

/-- Value of a key in an object (first binding wins; the maps built by
the embedded code have unique keys). -/
def lookupKey (m : ObjMap) (k : String) : Option Json :=
  match m with
  | [] => none
  | (k2, v) :: rest => if k2 = k then some v else lookupKey rest k

/-- JavaScript object spread {...a, ...b}: keys of `a` keep their
positions with values overridden by `b` where present, and keys only in
`b` are appended in their order. -/
def spread (a b : ObjMap) : ObjMap :=
  a.map (fun p => (p.1, (lookupKey b p.1).getD p.2))
    ++ b.filter (fun p => (lookupKey a p.1).isNone)

/-- View an object map as a JSON object value (for trace payloads). -/
def objToJson (m : ObjMap) : Json := Json.obj m

/-- Message role (src/core/types.ts Message.role). -/
inductive Role where
  | system : Role
  | user : Role
  | assistant : Role
  | function : Role
  | tool : Role
deriving DecidableEq

/-- String form of a role, used in trace payloads. -/
def Role.toStr : Role → String
  | Role.system => "system"
  | Role.user => "user"
  | Role.assistant => "assistant"
  | Role.function => "function"
  | Role.tool => "tool"

/-- Function part of a tool call (swarm.ts ToolCall.function). -/
structure ToolCallFunction where
  name : String
  arguments : String
deriving DecidableEq

/-- Tool call requested by the model (swarm.ts ToolCall). -/
structure ToolCall where
  id : String
  type : String
  function : ToolCallFunction
deriving DecidableEq

/-- Message (src/core/types.ts).  The unused `function_call` field is
omitted: the orchestrator never writes or reads it. -/
structure Message where
  role : Role
  content : Option String
  name : Option String
  tool_call_id : Option String
  tool_calls : Option (List ToolCall)
deriving DecidableEq

/-- Request sent to the model provider by getChatCompletion.  The fields
tools, tool_choice, max_tokens and parallel_tool_calls are forwarded
verbatim and never read back by the loop, so they are omitted from the
model; `messages` is the rendered system message followed by the
history. -/
structure CreateParams where
  model : String
  messages : List Message
deriving DecidableEq

/-- The assistant message returned by the model provider
(response.choices[0].message). -/
structure ModelResponse where
  content : Option String
  tool_calls : Option (List ToolCall)

/-- The non-streaming model provider boundary
(modelProvider.createChatCompletion), as a function of the request. -/
abbrev Provider : Type := CreateParams → ModelResponse

/-- One chunk delta for a streamed tool call
(delta.tool_calls[i].function). -/
structure FuncDelta where
  name : Option String
  arguments : Option String

/-- One streamed tool-call fragment, addressed by slot index. -/
structure ToolCallDelta where
  index : Nat
  id : Option String
  type : Option String
  function : Option FuncDelta

/-- One streamed chunk (chunk.choices[0].delta). -/
structure Chunk where
  content : Option String
  tool_calls : List ToolCallDelta

/-- The streaming model provider boundary
(modelProvider.createChatCompletionStream), as the finite sequence of
chunks it yields. -/
abbrev StreamProvider : Type := CreateParams → List Chunk

/-- Result of validateInput / validateOutput (agent.ts). -/
structure ValidationResult where
  valid : Bool
  errors : List String

/-- One input/output validation rule (src/core/types.ts).  Validators are
modelled as pure boolean predicates on the text. -/
structure ValidationRule where
  name : String
  validator : String → Bool
  errorMessage : String

/-- Guardrail configuration (src/core/types.ts); safetyChecks are not
read by the orchestrator and are omitted. -/
structure GuardrailConfig where
  inputValidation : List ValidationRule
  outputValidation : List ValidationRule

/-- Agent instructions: static text or a function of the context
variables (src/core/types.ts InstructionsType). -/
inductive Instructions where
  | static (text : String) : Instructions
  | dynamic (f : ObjMap → String) : Instructions

mutual

/-- Agent (src/core/agent.ts).  The uuid id, traceEvents, maxTokens,
tool_choice and parallel_tool_calls fields are omitted: they are never
read by the orchestration loop being verified. -/
inductive Agent where
  | mk (name : String) (model : String) (instructions : Instructions)
      (functions : List FunctionType) (guardrails : GuardrailConfig) : Agent

/-- An entry of Agent.functions (src/core/types.ts FunctionType): a
callable (with its JavaScript function name), or a pre-built declarative
schema object.  A callable takes the context variables and the parsed
positional arguments and either returns a value or throws (Except.error
carries the thrown error's message). -/
inductive FunctionType where
  | callable (name : String) (fn : ObjMap → List Json → Except String JsValue) : FunctionType
  | schema (decl : Json) : FunctionType

/-- Result (src/core/result.ts): value, re-target agent, context
variable delta, each optional. -/
inductive Result where
  | mk (value : Option String) (agent : Option Agent)
      (context_variables : Option ObjMap) : Result

/-- A JavaScript value returned by an action callable, as classified by
handleFunctionResult: a Result instance, a bare Agent instance, or any
other value.  For another value only its String(·) coercion matters:
Except.ok is the coerced text (undefined is modelled as Except.ok ""
since both produce an empty tool message), Except.error models a
toString that throws. -/
inductive JsValue where
  | result (r : Result) : JsValue
  | agent (a : Agent) : JsValue
  | other (coerce : Except String String) : JsValue

end

/-- Name of an agent. -/
def Agent.name : Agent → String
  | Agent.mk n _ _ _ _ => n

/-- Model identifier of an agent. -/
def Agent.model : Agent → String
  | Agent.mk _ m _ _ _ => m

/-- Instructions of an agent. -/
def Agent.instructions : Agent → Instructions
  | Agent.mk _ _ i _ _ => i

/-- Action list of an agent. -/
def Agent.functions : Agent → List FunctionType
  | Agent.mk _ _ _ fs _ => fs

/-- Guardrails of an agent. -/
def Agent.guardrails : Agent → GuardrailConfig
  | Agent.mk _ _ _ _ g => g

/-- Agent.getInstructions: static text, or the instruction function
applied to the context variables. -/
def Agent.getInstructions (a : Agent) (context_variables : ObjMap) : String :=
  match a.instructions with
  | Instructions.static s => s
  | Instructions.dynamic f => f context_variables

/-- Agent.validateInput: run every input rule, collect all failures. -/
def Agent.validateInput (a : Agent) (input : String) : ValidationResult :=
  match a.guardrails.inputValidation with
  | [] => { valid := true, errors := [] }
  | rules =>
    let errors := rules.filterMap
      (fun r => if r.validator input then none else some r.errorMessage)
    { valid := errors.isEmpty, errors := errors }

/-- Agent.validateOutput: run every output rule, collect all failures. -/
def Agent.validateOutput (a : Agent) (output : String) : ValidationResult :=
  match a.guardrails.outputValidation with
  | [] => { valid := true, errors := [] }
  | rules =>
    let errors := rules.filterMap
      (fun r => if r.validator output then none else some r.errorMessage)
    { valid := errors.isEmpty, errors := errors }

/-- Value of Result. -/
def Result.value : Result → Option String
  | Result.mk v _ _ => v

/-- Re-target agent of Result. -/
def Result.agent : Result → Option Agent
  | Result.mk _ a _ => a

/-- Context-variable delta of Result. -/
def Result.context_variables : Result → Option ObjMap
  | Result.mk _ _ cv => cv

/-- Result of handleFunctionResult (swarm.ts:632): an optional tool
message, an optional re-target agent, and a context-variable delta. -/
structure HandleResult where
  message : Option Message
  agent : Option Agent
  context_variables : ObjMap

/-- Swarm.handleFunctionResult (swarm.ts:632-689).  A Result maps to a
tool message with the stringified value (empty if absent), its agent and
its context variables; a bare Agent maps to no message and the agent;
any other value is coerced to text, and a failing coercion throws a
TypeError (modelled as Except.error with the TypeError's message). -/
def handleFunctionResult (result : JsValue) (funcName : String) (toolCallId : String) :
    Except String HandleResult :=
  match result with
  | JsValue.result r =>
    let msg : Message :=
      { role := Role.tool, content := some (r.value.getD ""), name := some funcName,
        tool_call_id := some toolCallId, tool_calls := none }
    Except.ok { message := some msg, agent := r.agent,
                context_variables := r.context_variables.getD [] }
  | JsValue.agent a =>
    Except.ok { message := none, agent := some a, context_variables := [] }
  | JsValue.other coerce =>
    match coerce with
    | Except.ok s =>
      let msg : Message :=
        { role := Role.tool, content := some s, name := some funcName,
          tool_call_id := some toolCallId, tool_calls := none }
      Except.ok { message := some msg, agent := none, context_variables := [] }
    | Except.error _ => Except.error "函数返回值无法转换为字符串"

/-- Swarm.serializeResult (swarm.ts:694-706): the trace payload for a
function return value; for a plain value this performs the String(·)
coercion and therefore throws when the coercion throws.  An absent
value/agent/context field is rendered as null in the payload. -/
def serializeResult (result : JsValue) : Except String Json :=
  match result with
  | JsValue.agent a => Except.ok (Json.obj [("agent", Json.str a.name)])
  | JsValue.result r =>
    Except.ok (Json.obj
      [("value", match r.value with
        | some s => Json.str s
        | none => Json.null),
       ("agent", match r.agent with
        | some a => Json.str a.name
        | none => Json.null),
       ("context_variables", match r.context_variables with
        | some m => objToJson m
        | none => Json.null)])
  | JsValue.other c => c.map Json.str

/-- The functionMap built at the top of handleToolCalls: JavaScript
object assignment in list order, so a later callable with the same name
overrides an earlier one; schema entries are skipped. -/
def lookupFunction (functions : List FunctionType) (name : String) :
    Option (ObjMap → List Json → Except String JsValue) :=
  functions.foldl (fun acc f =>
    match f with
    | FunctionType.callable n fn => if n = name then some fn else acc
    | FunctionType.schema _ => acc) none

/-- Object.values of a parsed JSON argument payload, as used by
`func(contextVariables, ...Object.values(parsedArgs))`: field values of
an object, elements of an array, one-character strings for a string,
nothing for numbers and booleans, and a TypeError for null. -/
def jsObjectValues : Json → Except String (List Json)
  | Json.obj fields => Except.ok (fields.map (fun p => p.2))
  | Json.arr xs => Except.ok xs
  | Json.str s => Except.ok (s.data.map (fun c => Json.str (String.mk [c])))
  | Json.null => Except.error "Cannot convert undefined or null to object"
  | Json.bool _ => Except.ok []
  | Json.num _ => Except.ok []

/-- Accumulated response of handleToolCalls (swarm.ts:529-533). -/
structure ToolCallsAcc where
  messages : List Message
  agent : Option Agent
  context_variables : ObjMap

/-- The catch block of handleToolCalls (swarm.ts:583-602): trace the
error and synthesize a tool-result error message; the run continues. -/
def toolCallCatch (resp : ToolCallsAcc) (tracer : Tracer) (name toolCallId e : String) :
    ToolCallsAcc × Tracer :=
  let tracer := tracer.addEvent EventType.function_return
    (Json.obj [("name", Json.str name), ("error", Json.str e)])
  let msg : Message :=
    { role := Role.tool, content := some ("函数 " ++ name ++ " 执行错误: " ++ e),
      name := some name, tool_call_id := some toolCallId, tool_calls := none }
  ({ resp with messages := resp.messages ++ [msg] }, tracer)

/-- One iteration of the tool-call loop of handleToolCalls
(swarm.ts:535-624), threading the accumulated response, the tracer and
the instrumentation list of invoked callable names. -/
def processToolCall (functions : List FunctionType) (contextVariables : ObjMap)
    (st : ToolCallsAcc × Tracer × List String) (toolCall : ToolCall) :
    ToolCallsAcc × Tracer × List String :=
  let (resp, tracer, invoked) := st
  if toolCall.type = "function" then
    let name := toolCall.function.name
    let args := toolCall.function.arguments
    let toolCallId := toolCall.id
    let tracer := tracer.addEvent EventType.function_call
      (Json.obj [("name", Json.str name), ("arguments", Json.str args)])
    match lookupFunction functions name with
    | some func =>
      match jsonParse args with
      | Except.error e =>
        let (resp, tracer) := toolCallCatch resp tracer name toolCallId e
        (resp, tracer, invoked)
      | Except.ok parsedArgs =>
        match jsObjectValues parsedArgs with
        | Except.error e =>
          let (resp, tracer) := toolCallCatch resp tracer name toolCallId e
          (resp, tracer, invoked)
        | Except.ok vals =>
          let invoked := invoked ++ [name]
          match func contextVariables vals with
          | Except.error e =>
            let (resp, tracer) := toolCallCatch resp tracer name toolCallId e
            (resp, tracer, invoked)
          | Except.ok funcResult =>
            match serializeResult funcResult with
            | Except.error e =>
              let (resp, tracer) := toolCallCatch resp tracer name toolCallId e
              (resp, tracer, invoked)
            | Except.ok ser =>
              let tracer := tracer.addEvent EventType.function_return
                (Json.obj [("name", Json.str name), ("result", ser)])
              match handleFunctionResult funcResult name toolCallId with
              | Except.error e =>
                let (resp, tracer) := toolCallCatch resp tracer name toolCallId e
                (resp, tracer, invoked)
              | Except.ok r =>
                let newMessages := resp.messages ++ (match r.message with
                  | some m => [m]
                  | none => [])
                let newAgent := match r.agent with
                  | some a => some a
                  | none => resp.agent
                let newCtx := spread resp.context_variables r.context_variables
                ({ messages := newMessages, agent := newAgent,
                   context_variables := newCtx }, tracer, invoked)
    | none =>
      let errorMessage := "函数 " ++ name ++ " 未找到"
      let tracer := tracer.addEvent EventType.function_return
        (Json.obj [("name", Json.str name), ("error", Json.str errorMessage)])
      let msg : Message :=
        { role := Role.tool, content := some errorMessage, name := some name,
          tool_call_id := some toolCallId, tool_calls := none }
      ({ resp with messages := resp.messages ++ [msg] }, tracer, invoked)
  else st

/-- Swarm.handleToolCalls (swarm.ts:509-627): process the requested tool
calls in input order against the executor's callables, with the batch's
initial context variables passed to every call. -/
def handleToolCalls (toolCalls : List ToolCall) (functions : List FunctionType)
    (contextVariables : ObjMap) (tracer : Tracer) (invoked : List String) :
    ToolCallsAcc × Tracer × List String :=
  toolCalls.foldl (processToolCall functions contextVariables)
    ({ messages := [], agent := none, context_variables := [] }, tracer, invoked)

/-- Truncated preview text: substring(0, n) plus "..." when longer, as
used for trace payloads (JavaScript indexes UTF-16 units; the model
indexes characters, which agrees on the recorded code points). -/
def truncatePreview (n : Nat) (s : String) : String :=
  s.take n ++ (if n < s.length then "..." else "")

/-- Preview of one message inside a model_call trace payload; a null or
empty content is recorded as null (JavaScript truthiness). -/
def messagePreview (m : Message) : Json :=
  Json.obj [("role", Json.str m.role.toStr),
            ("content", match m.content with
              | some c => if c = "" then Json.null else Json.str (truncatePreview 100 c)
              | none => Json.null)]

/-- Payload of a model_call trace event (swarm.ts:119-125). -/
def modelCallData (model : String) (msgs : List Message) : Json :=
  Json.obj [("model", Json.str model), ("messages", Json.arr (msgs.map messagePreview))]

/-- The user-input validation pass at the top of each loop iteration
(swarm.ts:97-116): validate every user message with truthy content
against the current agent; the first failure throws, otherwise a
guardrail_check success event is recorded per validated message. -/
def validateMessages (agent : Agent) : List Message → Tracer → Except (String × Tracer) Tracer
  | [], tracer => Except.ok tracer
  | m :: rest, tracer =>
    if m.role = Role.user then
      match m.content with
      | some c =>
        if c = "" then validateMessages agent rest tracer
        else
          let vr := agent.validateInput c
          if vr.valid then
            validateMessages agent rest (tracer.addEvent EventType.guardrail_check
              (Json.obj [("type", Json.str "input_validation"), ("success", Json.bool true)]))
          else
            Except.error ("输入验证失败: " ++ String.intercalate ", " vr.errors,
              tracer.addEvent EventType.guardrail_check
                (Json.obj [("type", Json.str "input_validation"),
                           ("success", Json.bool false),
                           ("errors", Json.arr (vr.errors.map Json.str))]))
      | none => validateMessages agent rest tracer
    else validateMessages agent rest tracer

/-- The model-output validation step (swarm.ts:141-158): for truthy
assistant text, record a guardrail_check event; failures only warn and
never abort. -/
def outputValidationTrace (agent : Agent) (content : Option String) (tracer : Tracer) : Tracer :=
  match content with
  | some c =>
    if c = "" then tracer
    else
      let vr := agent.validateOutput c
      if vr.valid then
        tracer.addEvent EventType.guardrail_check
          (Json.obj [("type", Json.str "output_validation"), ("success", Json.bool true)])
      else
        tracer.addEvent EventType.guardrail_check
          (Json.obj [("type", Json.str "output_validation"), ("success", Json.bool false),
                     ("errors", Json.arr (vr.errors.map Json.str))])
  | none => tracer

/-- Swarm.getChatCompletion (swarm.ts:721-761): re-render the system
instructions from the current context variables and send them, followed
by the history, to the provider. -/
def getChatCompletionParams (agent : Agent) (history : List Message) (ctx : ObjMap)
    (modelOverride : Option String) : CreateParams :=
  let instructions := agent.getInstructions ctx
  let sysMsg : Message :=
    { role := Role.system, content := some instructions, name := none,
      tool_call_id := none, tool_calls := none }
  { model := modelOverride.getD agent.model, messages := sysMsg :: history }

/-- True when the response requests a non-empty batch of tool calls
(the `responseMessage.tool_calls && responseMessage.tool_calls.length > 0`
guard). -/
def wantsTools : Option (List ToolCall) → Bool
  | some (_ :: _) => true
  | _ => false

/-- The per-run conversation state together with instrumentation fields:
`sent` records every request handed to the provider, `invoked` every
action callable actually executed, and `toolRounds` every entered
tool-execution round. -/
structure RunState where
  agent : Agent
  messages : List Message
  ctx : ObjMap
  turns : Nat
  tracer : Tracer
  sent : List CreateParams
  invoked : List String
  toolRounds : Nat

/-- The Response object returned by a successful run (src/core/types.ts
Response). -/
structure RunResponse where
  messages : List Message
  agent : Agent
  context_variables : ObjMap
  trace : List TraceEvent

/-- Outcome of a run: the returned Response or the thrown error message,
together with the final instrumented state. -/
structure RunOutcome where
  result : Except String RunResponse
  state : RunState

/-- Exiting the loop (swarm.ts:211-222): record agent_end and return the
final messages, agent, context variables and trace. -/
def finishRun (st : RunState) : RunOutcome :=
  let tracer := st.tracer.addEvent EventType.agent_end
    (Json.obj [("agent", Json.str st.agent.name)])
  let resp : RunResponse :=
    { messages := st.messages, agent := st.agent, context_variables := st.ctx,
      trace := tracer.getEvents }
  { result := Except.ok resp, state := { st with tracer := tracer } }

/-- The while loop of Swarm.run (swarm.ts:95-209).  The fuel argument is
the number of remaining turns, `max_turns - turns`; the loop guard
`turns < max_turns` is the fuel being nonzero, and the `turns++` of a
tool round consumes one unit. -/
def runLoop (provider : Provider) (execute_tools : Bool) (model_override : Option String) :
    Nat → RunState → RunOutcome
  | 0, st => finishRun st
  | fuel + 1, st =>
    match validateMessages st.agent st.messages st.tracer with
    | Except.error (e, tracer) =>
      { result := Except.error e, state := { st with tracer := tracer } }
    | Except.ok tracer =>
      let tracer := tracer.addEvent EventType.model_call
        (modelCallData (model_override.getD st.agent.model) st.messages)
      let params := getChatCompletionParams st.agent st.messages st.ctx model_override
      let response := provider params
      let tracer := outputValidationTrace st.agent response.content tracer
      let asstMsg : Message :=
        { role := Role.assistant, content := response.content, name := none,
          tool_call_id := none, tool_calls := response.tool_calls }
      let st := { st with tracer := tracer, sent := st.sent ++ [params],
                          messages := st.messages ++ [asstMsg] }
      if wantsTools response.tool_calls && execute_tools then
        let st := { st with turns := st.turns + 1, toolRounds := st.toolRounds + 1 }
        let tcs := response.tool_calls.getD []
        let (tcResult, tracer2, invoked2) :=
          handleToolCalls tcs st.agent.functions st.ctx st.tracer st.invoked
        let st := { st with messages := st.messages ++ tcResult.messages,
                            ctx := spread st.ctx tcResult.context_variables,
                            tracer := tracer2, invoked := invoked2 }
        match tcResult.agent with
        | some a2 =>
          let tracer3 := st.tracer.addEvent EventType.handoff
            (Json.obj [("from", Json.str st.agent.name), ("to", Json.str a2.name),
                       ("context_update", objToJson tcResult.context_variables)])
          runLoop provider execute_tools model_override fuel
            { st with tracer := tracer3, agent := a2 }
        | none => finishRun st
      else finishRun st

/-- The Swarm orchestrator: its model provider (both calling modes) and
the tracing flag fixed at construction. -/
structure Swarm where
  createChatCompletion : Provider
  createChatCompletionStream : StreamProvider
  enableTracing : Bool

/-- Swarm.run, non-streaming path (swarm.ts:54-223).  The JavaScript
default max_turns = Infinity corresponds to any fuel larger than the
number of tool rounds the run performs.  Lines 78-81 construct a
systemMessage that is never appended to currentMessages (dead code), so
no system message enters the returned history; the rendered system
message is sent to the provider by getChatCompletionParams instead. -/
def Swarm.run (sw : Swarm) (agent : Agent) (messages : List Message)
    (context_variables : ObjMap) (max_turns : Nat) (execute_tools : Bool)
    (model_override : Option String) : RunOutcome :=
  let tracer := (Tracer.mk [] sw.enableTracing 0).clear
  let currentMessages := messages
  let currentContextVars := context_variables
  let systemInstructions := agent.getInstructions currentContextVars
  let tracer := tracer.addEvent EventType.agent_start
    (Json.obj [("agent", Json.str agent.name),
               ("instructions", Json.str (truncatePreview 200 systemInstructions))])
  runLoop sw.createChatCompletion execute_tools model_override max_turns
    { agent := agent, messages := currentMessages, ctx := currentContextVars,
      turns := 0, tracer := tracer, sent := [], invoked := [], toolRounds := 0 }

/-- The empty tool-call slot pushed while padding the accumulation array
(swarm.ts:345-351). -/
def emptyToolCall : ToolCall :=
  { id := "", type := "", function := { name := "", arguments := "" } }

/-- Pad the accumulated tool-call array so that the announced index is in
range (the while loop of swarm.ts:345-351). -/
def padTo (l : List ToolCall) (n : Nat) : List ToolCall :=
  l ++ List.replicate (n + 1 - l.length) emptyToolCall

/-- Apply one streamed tool-call fragment to the accumulation array
(swarm.ts:341-381): a truthy id/type/name overwrites, a truthy argument
fragment appends. -/
def applyDelta (acc : List ToolCall) (d : ToolCallDelta) : List ToolCall :=
  let acc := padTo acc d.index
  let cur := (acc.getD d.index emptyToolCall)
  let cur := match d.id with
    | some s => if s = "" then cur else { cur with id := s }
    | none => cur
  let cur := match d.type with
    | some s => if s = "" then cur else { cur with type := s }
    | none => cur
  let cur := match d.function with
    | some f =>
      let cur := match f.name with
        | some nm => if nm = "" then cur else
            { cur with function := { cur.function with name := nm } }
        | none => cur
      match f.arguments with
      | some a => if a = "" then cur else
          { cur with function := { cur.function with arguments := cur.function.arguments ++ a } }
      | none => cur
    | none => cur
  acc.set d.index cur

/-- The collected streamed response (swarm.ts:316-319). -/
structure Collected where
  content : String
  tool_calls : List ToolCall

/-- Apply one streamed chunk: concatenate truthy content and fold the
tool-call fragments (swarm.ts:323-383). -/
def applyChunk (c : Collected) (ch : Chunk) : Collected :=
  let c := match ch.content with
    | some s => if s = "" then c else { c with content := c.content ++ s }
    | none => c
  { c with tool_calls := ch.tool_calls.foldl applyDelta c.tool_calls }

/-- Collect a whole chunk stream into one response. -/
def accumulateChunks (chunks : List Chunk) : Collected :=
  chunks.foldl applyChunk { content := "", tool_calls := [] }

/-- The while loop of Swarm.runWithStream (swarm.ts:264-490).  Unlike the
batched loop, `turns++` runs at the top of every iteration
(swarm.ts:287), before the model call; the assistant message is pushed
before output validation; and the emitted step events are presentation
only and not modelled. -/
def runStreamLoop (provider : StreamProvider) (execute_tools : Bool)
    (model_override : Option String) : Nat → RunState → RunOutcome
  | 0, st => finishRun st
  | fuel + 1, st =>
    match validateMessages st.agent st.messages st.tracer with
    | Except.error (e, tracer) =>
      { result := Except.error e, state := { st with tracer := tracer } }
    | Except.ok tracer =>
      let st := { st with turns := st.turns + 1, tracer := tracer }
      let tracer := st.tracer.addEvent EventType.model_call
        (modelCallData (model_override.getD st.agent.model) st.messages)
      let params := getChatCompletionParams st.agent st.messages st.ctx model_override
      let chunks := provider params
      let collected := accumulateChunks chunks
      let asstMsg : Message :=
        { role := Role.assistant, content := some collected.content, name := none,
          tool_call_id := none, tool_calls := some collected.tool_calls }
      let tracer := outputValidationTrace st.agent (some collected.content) tracer
      let st := { st with tracer := tracer, sent := st.sent ++ [params],
                          messages := st.messages ++ [asstMsg] }
      if wantsTools (some collected.tool_calls) && execute_tools then
        let st := { st with toolRounds := st.toolRounds + 1 }
        let (tcResult, tracer2, invoked2) :=
          handleToolCalls collected.tool_calls st.agent.functions st.ctx st.tracer st.invoked
        let st := { st with messages := st.messages ++ tcResult.messages,
                            ctx := spread st.ctx tcResult.context_variables,
                            tracer := tracer2, invoked := invoked2 }
        match tcResult.agent with
        | some a2 =>
          let tracer3 := st.tracer.addEvent EventType.handoff
            (Json.obj [("from", Json.str st.agent.name), ("to", Json.str a2.name),
                       ("context_update", objToJson tcResult.context_variables)])
          runStreamLoop provider execute_tools model_override fuel
            { st with tracer := tracer3, agent := a2 }
        | none => finishRun st
      else finishRun st

/-- Swarm.runWithStream (swarm.ts:228-504): identical prelude to the
batched path (tracer cleared, argument copies, dead systemMessage,
agent_start event), then the streaming loop. -/
def Swarm.runWithStream (sw : Swarm) (agent : Agent) (messages : List Message)
    (context_variables : ObjMap) (max_turns : Nat) (execute_tools : Bool)
    (model_override : Option String) : RunOutcome :=
  let tracer := (Tracer.mk [] sw.enableTracing 0).clear
  let currentMessages := messages
  let currentContextVars := context_variables
  let systemInstructions := agent.getInstructions currentContextVars
  let tracer := tracer.addEvent EventType.agent_start
    (Json.obj [("agent", Json.str agent.name),
               ("instructions", Json.str (truncatePreview 200 systemInstructions))])
  runStreamLoop sw.createChatCompletionStream execute_tools model_override max_turns
    { agent := agent, messages := currentMessages, ctx := currentContextVars,
      turns := 0, tracer := tracer, sent := [], invoked := [], toolRounds := 0 }

/-- True when the run threw (input validation failure). -/
def runThrew (o : RunOutcome) : Bool :=
  match o.result with
  | Except.ok _ => false
  | Except.error _ => true

/-- Messages of a successful run (empty when the run threw). -/
def resultMessages (o : RunOutcome) : List Message :=
  match o.result with
  | Except.ok r => r.messages
  | Except.error _ => []

/-- Final context variables of a successful run. -/
def resultCtx (o : RunOutcome) : ObjMap :=
  match o.result with
  | Except.ok r => r.context_variables
  | Except.error _ => []

/-- Number of model_call events in a trace. -/
def countModelCalls (es : List TraceEvent) : Nat :=
  (es.filter (fun e => e.type == EventType.model_call)).length

/-- True when every user message with truthy content passes the agent's
input validation: the condition under which the per-iteration validation
pass succeeds. -/
def allUserValid (agent : Agent) (msgs : List Message) : Bool :=
  msgs.all (fun m =>
    if m.role = Role.user then
      match m.content with
      | some c => if c = "" then true else (agent.validateInput c).valid
      | none => true
    else true)

/-- Guardrail configuration with no rules. -/
def emptyGuardrails : GuardrailConfig := { inputValidation := [], outputValidation := [] }

/-- A user message with the given text. -/
def userMsg (s : String) : Message := ⟨Role.user, some s, none, none, none⟩

/-- A plain assistant message with the given text (tool_calls absent). -/
def asstText (s : String) : Message := ⟨Role.assistant, some s, none, none, none⟩

/-- A system message with the given text. -/
def sysMsg (s : String) : Message := ⟨Role.system, some s, none, none, none⟩

/-- A tool call of type "function". -/
def mkToolCall (id name args : String) : ToolCall :=
  { id := id, type := "function", function := { name := name, arguments := args } }

/-- A provider that always returns the same assistant message. -/
def constProvider (r : ModelResponse) : Provider := fun _ => r

/-- A swarm over a non-streaming provider (the streaming mode is unused
in these scenarios), with tracing enabled. -/
def mkSwarm (p : Provider) : Swarm :=
  { createChatCompletion := p, createChatCompletionStream := fun _ => [],
    enableTracing := true }

/-- Scenario A executor: no actions, no guardrails, the default name,
model and instructions of src/core/agent.ts. -/
def agentA : Agent :=
  Agent.mk "Agent" "gpt-4o" (Instructions.static "You are a helpful agent.") [] emptyGuardrails

/-- Scenario A: the model returns plain text "Hello". -/
def runA : RunOutcome :=
  Swarm.run (mkSwarm (constProvider { content := some "Hello", tool_calls := none }))
    agentA [userMsg "Hi"] [] 10 true none

/-- An action callable that ignores its arguments and returns a Result
carrying only a context-variable delta. -/
def setCtxFn (d : ObjMap) : ObjMap → List Json → Except String JsValue :=
  fun _ _ => Except.ok (JsValue.result (Result.mk none none (some d)))

/-- Scenario C executor: two actions whose Results carry the deltas d1
and d2. -/
def agentC1 (d1 d2 : ObjMap) : Agent :=
  Agent.mk "Agent" "gpt-4o" (Instructions.static "")
    [FunctionType.callable "setA" (setCtxFn d1), FunctionType.callable "setB" (setCtxFn d2)]
    emptyGuardrails

/-- Scenario C: one assistant turn requests the two calls in order. -/
def runC1 (ctx0 d1 d2 : ObjMap) : RunOutcome :=
  Swarm.run (mkSwarm (constProvider { content := none,
                                      tool_calls := some
                                        [mkToolCall "call_1" "setA" "\x7b\x7d",
                                         mkToolCall "call_2" "setB" "\x7b\x7d"] }))
    (agentC1 d1 d2) [userMsg "Hi"] ctx0 10 true none

/-- An action whose returned value is neither a Result nor an Agent and
whose String(·) coercion throws with the given message. -/
def badCoerceFn (e : String) : ObjMap → List Json → Except String JsValue :=
  fun _ _ => Except.ok (JsValue.other (Except.error e))

/-- Executor owning the action with the failing coercion. -/
def agentC3 (e : String) : Agent :=
  Agent.mk "Agent" "gpt-4o" (Instructions.static "")
    [FunctionType.callable "f" (badCoerceFn e)] emptyGuardrails

/-- A run whose single tool call returns the uncoercible value. -/
def runC3 (e : String) : RunOutcome :=
  Swarm.run (mkSwarm (constProvider { content := none,
                                      tool_calls := some
                                        [mkToolCall "call_1" "f" "\x7b\x7d"] }))
    (agentC3 e) [userMsg "Hi"] [] 10 true none

/-- An executor that rejects every input. -/
def agentStrict : Agent :=
  Agent.mk "B" "gpt-4o" (Instructions.static "")
    []
    { inputValidation := [{ name := "never", validator := fun _ => false,
                            errorMessage := "rejected" }],
      outputValidation := [] }

/-- An executor whose single action hands off to the strict executor. -/
def agentLax : Agent :=
  Agent.mk "A" "gpt-4o" (Instructions.static "")
    [FunctionType.callable "toB"
      (fun _ _ => Except.ok (JsValue.result (Result.mk none (some agentStrict) none)))]
    emptyGuardrails

/-- A run that hands off to the strict executor after one model call, so
that re-validation fails on the second loop iteration. -/
def runC4 : RunOutcome :=
  Swarm.run (mkSwarm (constProvider { content := none,
                                      tool_calls := some
                                        [mkToolCall "call_1" "toB" "\x7b\x7d"] }))
    agentLax [userMsg "Hi"] [] 10 true none

/-- An action callable that always throws with the given message. -/
def throwFn (e : String) : ObjMap → List Json → Except String JsValue :=
  fun _ _ => Except.error e

/-- Executor owning the throwing action, under its given name. -/
def agentC6 (n e : String) : Agent :=
  Agent.mk "Agent" "gpt-4o" (Instructions.static "")
    [FunctionType.callable n (throwFn e)] emptyGuardrails

/-- A run whose single tool call invokes the throwing action. -/
def runC6 (n e : String) : RunOutcome :=
  Swarm.run (mkSwarm (constProvider { content := none,
                                      tool_calls := some
                                        [mkToolCall "call_1" n "\x7b\x7d"] }))
    (agentC6 n e) [userMsg "Hi"] [] 10 true none

/-- A run requesting an action name the executor does not have. -/
def runC7 (n : String) : RunOutcome :=
  Swarm.run (mkSwarm (constProvider { content := none,
                                      tool_calls := some
                                        [mkToolCall "call_1" n "\x7b\x7d"] }))
    agentA [userMsg "Hi"] [] 10 true none

/-- A swarm whose streaming provider yields a single plain-text chunk. -/
def swarmC8 : Swarm :=
  { createChatCompletion := constProvider { content := some "Hello", tool_calls := none },
    createChatCompletionStream := fun _ => [{ content := some "Hello", tool_calls := [] }],
    enableTracing := true }

/-- The streaming run of the plain-text scenario. -/
def runC8stream : RunOutcome :=
  Swarm.runWithStream swarmC8 agentA [userMsg "Hi"] [] 10 true none

/-- The batched run of the same plain-text scenario. -/
def runC8batch : RunOutcome :=
  Swarm.run swarmC8 agentA [userMsg "Hi"] [] 10 true none

/-- A swarm whose model requests one tool call (used with
execute_tools = false). -/
def swarmC5 : Swarm :=
  mkSwarm (constProvider { content := none,
                           tool_calls := some [mkToolCall "call_1" "f" "\x7b\x7d"] })

/-- Executor with one action that would be observable if invoked. -/
def agentC5 : Agent :=
  Agent.mk "Agent" "gpt-4o" (Instructions.static "")
    [FunctionType.callable "f" (setCtxFn [("hit", Json.bool true)])] emptyGuardrails

-- ## Theorems

/-- Packing a code point below the surrogate range and unpacking it is the
identity. -/
theorem charToNatOfNat (n : Nat) (h : n < 55296) : (Char.ofNat n).toNat = n := by
  have hv : n.isValidChar := Or.inl h
  simp [Char.ofNat, hv, Char.ofNatAux, Char.toNat, UInt32.toNat, BitVec.toNat_ofNatLt]

/-- Rebuilding a string from its character list is the identity. -/
theorem stringMk_data (s : String) : String.mk s.data = s := by
  cases s
  rfl

/-- Skipping whitespace stops at a non-whitespace character. -/
theorem skipWs_cons_not (c : Char) (cs : List Char) (h : isWsChar c = false) :
    skipWs (c :: cs) = c :: cs := by
  simp [skipWs, h]

/-- Stepping the value parser over a non-whitespace head character. -/
theorem parseVal_cons (fuel : Nat) (c : Char) (cs : List Char) (h : isWsChar c = false) :
    parseVal (fuel + 1) (c :: cs) =
      parseDispatch (parseStringBody fuel) (parseElems fuel) (parseFields fuel) c cs := by
  simp [parseVal, skipWs_cons_not c cs h]

/-- Decoding the hexadecimal digit characters this serializer emits. -/
theorem hexVal_hexDigitChar : ∀ d, d < 16 → hexVal (hexDigitChar d) = some d := by decide

/-- Decimal digit characters are digits. -/
theorem decChar_isDigit : ∀ d, d < 10 → (decChar d).isDigit = true := by decide

/-- Decimal digit characters are not whitespace nor any dispatch
character of the value parser. -/
theorem decChar_not_special : ∀ d, d < 10 →
    (isWsChar (decChar d) = false ∧ ¬decChar d = 'n' ∧ ¬decChar d = 't' ∧
     ¬decChar d = 'f' ∧ ¬decChar d = '"' ∧ ¬decChar d = '[' ∧
     ¬decChar d = lbraceChar ∧ ¬decChar d = '-' ∧ ¬decChar d = ']') := by decide

/-- Escaping a character yields at least one character. -/
theorem escapeChar_length_pos (c : Char) : 1 ≤ (escapeChar c).length := by
  unfold escapeChar
  split_ifs <;> simp

/-- Escaping cannot shorten a string. -/
theorem length_le_escapeString (s : List Char) : s.length ≤ (escapeString s).length := by
  induction s with
  | nil => simp [escapeString]
  | cons c cs ih =>
    have := escapeChar_length_pos c
    simp only [escapeString, List.flatMap_cons, List.length_append, List.length_cons]
    simp only [escapeString] at ih
    omega


/-- Parsing an escaped string body recovers the original characters and
leaves the input after the closing quote untouched. -/
theorem psb_round : ∀ (s : List Char) (fuel : Nat) (rest : List Char),
    s.length + 1 ≤ fuel →
    parseStringBody fuel (escapeString s ++ '"' :: rest) = some (s, rest) := by
  intro s
  induction s with
  | nil =>
    intro fuel rest hf
    match fuel, hf with
    | fuel + 1, _ =>
      simp [escapeString, parseStringBody]
  | cons c cs ih =>
    intro fuel rest hf
    match fuel, hf with
    | fuel + 1, hf =>
      have hfs : cs.length + 1 ≤ fuel := by
        simp only [List.length_cons] at hf
        omega
      have hih := ih fuel rest hfs
      have hmain : escapeString (c :: cs) ++ '"' :: rest
          = escapeChar c ++ (escapeString cs ++ '"' :: rest) := by
        simp [escapeString]
      rw [hmain]
      by_cases h1 : c = '"'
      · subst h1
        have hesc : escapeChar '"' = ['\\', '"'] := rfl
        rw [hesc]
        simp [parseStringBody, hih]
      · by_cases h2 : c = '\\'
        · subst h2
          have hesc : escapeChar '\\' = ['\\', '\\'] := rfl
          rw [hesc]
          simp [parseStringBody, hih]
        · by_cases h3 : c = '\n'
          · subst h3
            have hesc : escapeChar '\n' = ['\\', 'n'] := rfl
            rw [hesc]
            simp [parseStringBody, hih]
          · by_cases h4 : c = '\t'
            · subst h4
              have hesc : escapeChar '\t' = ['\\', 't'] := rfl
              rw [hesc]
              simp [parseStringBody, hih]
            · by_cases h5 : c = '\r'
              · subst h5
                have hesc : escapeChar '\r' = ['\\', 'r'] := rfl
                rw [hesc]
                simp [parseStringBody, hih]
              · by_cases h6 : c = Char.ofNat 8
                · subst h6
                  have hesc : escapeChar (Char.ofNat 8) = ['\\', 'b'] := rfl
                  rw [hesc]
                  simp [parseStringBody, hih]
                · by_cases h7 : c = Char.ofNat 12
                  · subst h7
                    have hesc : escapeChar (Char.ofNat 12) = ['\\', 'f'] := rfl
                    rw [hesc]
                    simp [parseStringBody, hih]
                  · by_cases h8 : c.toNat < 32
                    · have hesc : escapeChar c =
                          ['\\', 'u', '0', '0', hexDigitChar (c.toNat / 16),
                           hexDigitChar (c.toNat % 16)] := by
                        simp [escapeChar, h1, h2, h3, h4, h5, h6, h7, h8]
                      rw [hesc]
                      have hdiv : c.toNat / 16 < 16 := by omega
                      have hmod : c.toNat % 16 < 16 := by omega
                      have hv0 : hexVal '0' = some 0 := by decide
                      have harith : c.toNat / 16 * 16 + c.toNat % 16 = c.toNat := by omega
                      simp only [List.cons_append, parseStringBody]
                      norm_num [hv0, hexVal_hexDigitChar _ hdiv, hexVal_hexDigitChar _ hmod]
                      simp [harith, Char.ofNat_toNat, hih]
                    · have hesc : escapeChar c = [c] := by
                        simp [escapeChar, h1, h2, h3, h4, h5, h6, h7, h8]
                      rw [hesc]
                      simp only [List.cons_append, List.nil_append, parseStringBody]
                      rw [if_neg h1, if_neg h2]
                      simp [hih]

/-- Every character of a printed natural number is a decimal digit. -/
theorem printNat_all_digits (m : Nat) : ∀ c ∈ printNat m, c.isDigit = true := by
  unfold printNat
  by_cases h : m = 0
  · simp [h]
  · simp only [h, if_false, List.mem_map, List.mem_reverse]
    rintro c ⟨d, hd, rfl⟩
    exact decChar_isDigit d (Nat.digits_lt_base (by norm_num) hd)

/-- A printed natural number is nonempty. -/
theorem printNat_ne_nil (m : Nat) : printNat m ≠ [] := by
  unfold printNat
  by_cases h : m = 0
  · simp [h]
  · simp only [h, if_false]
    simp only [ne_eq, List.map_eq_nil_iff, List.reverse_eq_nil_iff]
    exact Nat.digits_ne_nil_iff_ne_zero.mpr h

/-- The printed form of a natural number starts with a digit character. -/
theorem printNat_head (m : Nat) : ∃ d t, d < 10 ∧ printNat m = decChar d :: t := by
  unfold printNat
  by_cases h : m = 0
  · exact ⟨0, [], by norm_num, by simp [h, decChar]⟩
  · simp only [h, if_false]
    have hne : Nat.digits 10 m ≠ [] := Nat.digits_ne_nil_iff_ne_zero.mpr h
    rcases hrev : (Nat.digits 10 m).reverse with _ | ⟨d, t⟩
    · exact absurd (List.reverse_eq_nil_iff.mp hrev) hne
    · refine ⟨d, t.map decChar, ?_, by simp [hrev]⟩
      have : d ∈ (Nat.digits 10 m).reverse := by simp [hrev]
      exact Nat.digits_lt_base (by norm_num) (List.mem_reverse.mp this)

/-- Folding the digit characters back gives the original number. -/
theorem digitsToNat_printNat (m : Nat) : digitsToNat (printNat m) = m := by
  unfold printNat
  by_cases h : m = 0
  · simp [h]
    decide
  · simp only [h, if_false]
    have hlt : ∀ d ∈ Nat.digits 10 m, d < 10 := fun d hd =>
      Nat.digits_lt_base (by norm_num) hd
    unfold digitsToNat
    rw [List.foldl_map, List.foldl_reverse]
    have hchar : ∀ d, d < 10 → (decChar d).toNat - 48 = d := by
      intro d hd
      unfold decChar
      rw [charToNatOfNat (48 + d) (by omega)]
      omega
    have step : ∀ (l : List Nat), (∀ d ∈ l, d < 10) →
        l.foldr (fun x y => y * 10 + ((decChar x).toNat - 48)) 0 = Nat.ofDigits 10 l := by
      intro l
      induction l with
      | nil => simp [Nat.ofDigits]
      | cons d ds ihl =>
        intro hall
        have hd : d < 10 := hall d (List.mem_cons_self d ds)
        have hds := ihl (fun x hx => hall x (List.mem_cons_of_mem d hx))
        simp only [List.foldr_cons, hds, Nat.ofDigits_cons]
        have h48 : (decChar d).toNat = 48 + d := by
          unfold decChar
          exact charToNatOfNat (48 + d) (by omega)
        omega
    rw [step _ hlt, Nat.ofDigits_digits 10 m]

/-- Taking digits from a digit string followed by a non-digit boundary
takes exactly the digit string. -/
theorem takeWhile_digits (ds rest : List Char) (hall : ∀ c ∈ ds, c.isDigit = true)
    (hrest : headNotDigit rest = true) :
    (ds ++ rest).takeWhile (fun c => c.isDigit) = ds := by
  induction ds with
  | nil =>
    cases rest with
    | nil => simp
    | cons c r =>
      simp only [headNotDigit, Bool.not_eq_true'] at hrest
      simp [List.takeWhile_cons, hrest]
  | cons c cs ihd =>
    have hc : c.isDigit = true := hall c (List.mem_cons_self c cs)
    simp only [List.cons_append, List.takeWhile_cons, hc]
    simp [ihd (fun x hx => hall x (List.mem_cons_of_mem c hx))]

/-- Dropping digits from a digit string followed by a non-digit boundary
leaves exactly the boundary. -/
theorem dropWhile_digits (ds rest : List Char) (hall : ∀ c ∈ ds, c.isDigit = true)
    (hrest : headNotDigit rest = true) :
    (ds ++ rest).dropWhile (fun c => c.isDigit) = rest := by
  induction ds with
  | nil =>
    cases rest with
    | nil => simp
    | cons c r =>
      simp only [headNotDigit, Bool.not_eq_true'] at hrest
      simp [List.dropWhile_cons, hrest]
  | cons c cs ihd =>
    have hc : c.isDigit = true := hall c (List.mem_cons_self c cs)
    simp only [List.cons_append, List.dropWhile_cons, hc]
    simp [ihd (fun x hx => hall x (List.mem_cons_of_mem c hx))]

/-- Parsing the printed form of a natural number recovers it. -/
theorem parseNum_print (m : Nat) (rest : List Char) (hrest : headNotDigit rest = true) :
    parseNum (printNat m ++ rest) = some (m, rest) := by
  unfold parseNum
  rw [takeWhile_digits _ _ (printNat_all_digits m) hrest,
      dropWhile_digits _ _ (printNat_all_digits m) hrest]
  simp [printNat_ne_nil m, digitsToNat_printNat m]

/-- Parser fuel bounds are positive. -/
theorem budget_pos (j : Json) : 1 ≤ budget j := by
  cases j <;> simp [budget]

/-- Element-list fuel bounds are positive. -/
theorem budgetElems_pos (xs : List Json) : 1 ≤ budgetElems xs := by
  cases xs <;> simp [budgetElems]

/-- Field-list fuel bounds are positive. -/
theorem budgetFields_pos (fs : List (String × Json)) : 1 ≤ budgetFields fs := by
  cases fs with
  | nil => simp [budgetFields]
  | cons kv fs => obtain ⟨k, v⟩ := kv; simp [budgetFields]

/-- Digit characters are not whitespace. -/
theorem decChar_not_ws : ∀ d, d < 10 → isWsChar (decChar d) = false := by decide

/-- Digit characters are not the closing bracket. -/
theorem decChar_ne_rbrack : ∀ d, d < 10 → ¬decChar d = ']' := by decide

/-- Every serialized JSON value begins with a significant character that
is neither whitespace nor a closing bracket. -/
theorem printJson_head (j : Json) :
    ∃ c t, printJson j = c :: t ∧ isWsChar c = false ∧ ¬(c = ']') := by
  cases j with
  | null => exact ⟨'n', ['u', 'l', 'l'], by simp [printJson], by decide, by decide⟩
  | bool b =>
    cases b with
    | false => exact ⟨'f', ['a', 'l', 's', 'e'], by simp [printJson], by decide, by decide⟩
    | true => exact ⟨'t', ['r', 'u', 'e'], by simp [printJson], by decide, by decide⟩
  | num n =>
    cases n with
    | ofNat m =>
      obtain ⟨d, t, hd, hp⟩ := printNat_head m
      exact ⟨decChar d, t, by simp [printJson, printInt, hp],
        decChar_not_ws d hd, decChar_ne_rbrack d hd⟩
    | negSucc m =>
      exact ⟨'-', printNat (m + 1), by simp [printJson, printInt], by decide, by decide⟩
  | str s => exact ⟨'"', escapeString s.data ++ ['"'], by simp [printJson], by decide, by decide⟩
  | arr xs => exact ⟨'[', printElems xs ++ [']'], by simp [printJson], by decide, by decide⟩
  | obj fs =>
    exact ⟨lbraceChar, printFields fs ++ [rbraceChar], by simp [printJson], by decide, by decide⟩

/-- A serialized nonempty element list begins like its first value. -/
theorem printElems_head (x : Json) (xs : List Json) :
    ∃ c t, printElems (x :: xs) = c :: t ∧ isWsChar c = false ∧ ¬(c = ']') := by
  obtain ⟨c, t, hp, hw, hr⟩ := printJson_head x
  cases xs with
  | nil => exact ⟨c, t, by simp [printElems, hp], hw, hr⟩
  | cons y ys =>
    exact ⟨c, t ++ ',' :: printElems (y :: ys), by simp [printElems, hp], hw, hr⟩

/-- A serialized nonempty field list begins with a double quote. -/
theorem printFields_head (k : String) (v : Json) (fs : List (String × Json)) :
    ∃ t, printFields ((k, v) :: fs) = '"' :: t := by
  cases fs with
  | nil => exact ⟨escapeString k.data ++ '"' :: ':' :: printJson v, by simp [printFields]⟩
  | cons kv fs' =>
    exact ⟨(escapeString k.data ++ '"' :: ':' :: printJson v) ++ ',' :: printFields (kv :: fs'),
      by simp [printFields]⟩

/-- Dispatch on a double quote parses a string literal. -/
theorem parseDispatch_quote (pStr : List Char → Option (List Char × List Char))
    (pElems : List Char → Option (List Json × List Char))
    (pFields : List Char → Option (List (String × Json) × List Char)) (cs : List Char) :
    parseDispatch pStr pElems pFields '"' cs =
      (pStr cs).map (fun p => (Json.str (String.mk p.1), p.2)) := rfl

/-- Dispatch on an opening bracket parses an array. -/
theorem parseDispatch_lbrack (pStr : List Char → Option (List Char × List Char))
    (pElems : List Char → Option (List Json × List Char))
    (pFields : List Char → Option (List (String × Json) × List Char)) (cs : List Char) :
    parseDispatch pStr pElems pFields '[' cs =
      match skipWs cs with
      | [] => none
      | c2 :: cs2 =>
        if c2 = ']' then some (Json.arr [], cs2)
        else (pElems (c2 :: cs2)).map (fun p => (Json.arr p.1, p.2)) := rfl

/-- Dispatch on an opening brace parses an object. -/
theorem parseDispatch_lbrace (pStr : List Char → Option (List Char × List Char))
    (pElems : List Char → Option (List Json × List Char))
    (pFields : List Char → Option (List (String × Json) × List Char)) (cs : List Char) :
    parseDispatch pStr pElems pFields lbraceChar cs =
      match skipWs cs with
      | [] => none
      | c2 :: cs2 =>
        if c2 = rbraceChar then some (Json.obj [], cs2)
        else (pFields (c2 :: cs2)).map (fun p => (Json.obj p.1, p.2)) := rfl

/-- Dispatch on a minus sign parses a negative number. -/
theorem parseDispatch_dash (pStr : List Char → Option (List Char × List Char))
    (pElems : List Char → Option (List Json × List Char))
    (pFields : List Char → Option (List (String × Json) × List Char)) (cs : List Char) :
    parseDispatch pStr pElems pFields '-' cs =
      match parseNum cs with
      | some (n, rest) => some (Json.num (-(n : Int)), rest)
      | none => none := rfl

/-- Dispatch on a digit parses a nonnegative number. -/
theorem parseDispatch_digit (pStr : List Char → Option (List Char × List Char))
    (pElems : List Char → Option (List Json × List Char))
    (pFields : List Char → Option (List (String × Json) × List Char))
    (c : Char) (cs : List Char)
    (h1 : ¬c = 'n') (h2 : ¬c = 't') (h3 : ¬c = 'f') (h4 : ¬c = '"') (h5 : ¬c = '[')
    (h6 : ¬c = lbraceChar) (h7 : ¬c = '-') (h8 : c.isDigit = true) :
    parseDispatch pStr pElems pFields c cs =
      (parseNum (c :: cs)).map (fun p => (Json.num (p.1 : Int), p.2)) := by
  simp [parseDispatch, h1, h2, h3, h4, h5, h6, h7, h8]

/-- A list headed by a non-digit character satisfies the number boundary
condition. -/
theorem headNotDigit_cons (c : Char) (cs : List Char) (h : c.isDigit = false) :
    headNotDigit (c :: cs) = true := by
  simp [headNotDigit, h]

/-- Parsing the serialization of a JSON value (with sufficient fuel)
recovers the value and the unconsumed input, along with the corresponding
statements for array elements and object fields. -/
theorem parse_print : ∀ fuel : Nat,
    (∀ j rest, budget j ≤ fuel → headNotDigit rest = true →
      parseVal fuel (printJson j ++ rest) = some (j, rest)) ∧
    (∀ x xs rest, budgetElems (x :: xs) ≤ fuel →
      parseElems fuel (printElems (x :: xs) ++ ']' :: rest) = some (x :: xs, rest)) ∧
    (∀ k v fs rest, budgetFields ((k, v) :: fs) ≤ fuel →
      parseFields fuel (printFields ((k, v) :: fs) ++ rbraceChar :: rest)
        = some ((k, v) :: fs, rest)) := by
  intro fuel
  induction fuel with
  | zero =>
    refine ⟨fun j rest hb _ => absurd hb ?_, fun x xs rest hb => absurd hb ?_,
      fun k v fs rest hb => absurd hb ?_⟩
    · have := budget_pos j
      omega
    · have := budgetElems_pos (x :: xs)
      omega
    · have := budgetFields_pos ((k, v) :: fs)
      omega
  | succ fuel ih =>
    obtain ⟨ihV, ihE, ihF⟩ := ih
    refine ⟨?_, ?_, ?_⟩
    · intro j rest hb hrest
      cases j with
      | null =>
        have heq : printJson Json.null ++ rest = 'n' :: 'u' :: 'l' :: 'l' :: rest := by
          simp [printJson]
        rw [heq, parseVal_cons fuel 'n' _ (by decide)]
        simp [parseDispatch, expectLit]
      | bool b =>
        cases b with
        | false =>
          have heq : printJson (Json.bool false) ++ rest
              = 'f' :: 'a' :: 'l' :: 's' :: 'e' :: rest := by
            simp [printJson]
          rw [heq, parseVal_cons fuel 'f' _ (by decide)]
          simp [parseDispatch, expectLit]
        | true =>
          have heq : printJson (Json.bool true) ++ rest = 't' :: 'r' :: 'u' :: 'e' :: rest := by
            simp [printJson]
          rw [heq, parseVal_cons fuel 't' _ (by decide)]
          simp [parseDispatch, expectLit]
      | num n =>
        cases n with
        | ofNat m =>
          obtain ⟨d, t, hd, hp⟩ := printNat_head m
          obtain ⟨hws, hn, ht', hf', hq, hlb, hlbr, hm', _⟩ := decChar_not_special d hd
          have hpj : printJson (Json.num (Int.ofNat m)) = printNat m := by
            simp [printJson, printInt]
          rw [hpj, hp, List.cons_append, parseVal_cons fuel _ _ hws,
            parseDispatch_digit _ _ _ _ _ hn ht' hf' hq hlb hlbr hm' (decChar_isDigit d hd)]
          have hback : decChar d :: (t ++ rest) = printNat m ++ rest := by
            rw [hp]
            simp
          rw [hback, parseNum_print m rest hrest]
          simp
        | negSucc m =>
          have hpj : printJson (Json.num (Int.negSucc m)) = '-' :: printNat (m + 1) := by
            simp [printJson, printInt]
          rw [hpj, List.cons_append, parseVal_cons fuel '-' _ (by decide),
            parseDispatch_dash, parseNum_print (m + 1) rest hrest]
          simp [Int.negSucc_eq]
      | str s =>
        have heq : printJson (Json.str s) ++ rest
            = '"' :: (escapeString s.data ++ '"' :: rest) := by
          simp [printJson]
        have hsd : s.length = s.data.length := rfl
        have hlen : s.data.length + 1 ≤ fuel := by
          simp [budget] at hb
          omega
        rw [heq, parseVal_cons fuel '"' _ (by decide), parseDispatch_quote,
          psb_round s.data fuel rest hlen]
        simp [stringMk_data]
      | arr xs =>
        cases xs with
        | nil =>
          have heq : printJson (Json.arr []) ++ rest = '[' :: ']' :: rest := by
            simp [printJson, printElems]
          rw [heq, parseVal_cons fuel '[' _ (by decide), parseDispatch_lbrack,
            skipWs_cons_not ']' rest (by decide)]
          simp
        | cons x xs' =>
          have hb' : budgetElems (x :: xs') ≤ fuel := by
            simp [budget] at hb
            omega
          obtain ⟨c, t, hpe, hws, hnr⟩ := printElems_head x xs'
          have heq : printJson (Json.arr (x :: xs')) ++ rest
              = '[' :: (printElems (x :: xs') ++ ']' :: rest) := by
            simp [printJson]
          have hback : c :: (t ++ ']' :: rest) = printElems (x :: xs') ++ ']' :: rest := by
            rw [hpe]
            simp
          rw [heq, parseVal_cons fuel '[' _ (by decide), parseDispatch_lbrack, hpe,
            List.cons_append, skipWs_cons_not c _ hws]
          simp [hnr, hback, ihE x xs' rest hb']
      | obj fs =>
        cases fs with
        | nil =>
          have heq : printJson (Json.obj []) ++ rest = lbraceChar :: rbraceChar :: rest := by
            simp [printJson, printFields]
          rw [heq, parseVal_cons fuel lbraceChar _ (by decide), parseDispatch_lbrace,
            skipWs_cons_not rbraceChar rest (by decide)]
          simp
        | cons kv fs' =>
          obtain ⟨k, v⟩ := kv
          have hb' : budgetFields ((k, v) :: fs') ≤ fuel := by
            simp [budget] at hb
            omega
          obtain ⟨t, hpf⟩ := printFields_head k v fs'
          have heq : printJson (Json.obj ((k, v) :: fs')) ++ rest
              = lbraceChar :: (printFields ((k, v) :: fs') ++ rbraceChar :: rest) := by
            simp [printJson]
          have hback : '"' :: (t ++ rbraceChar :: rest)
              = printFields ((k, v) :: fs') ++ rbraceChar :: rest := by
            rw [hpf]
            simp
          rw [heq, parseVal_cons fuel lbraceChar _ (by decide), parseDispatch_lbrace, hpf,
            List.cons_append, skipWs_cons_not '"' _ (by decide)]
          simp [show ('"' = rbraceChar) = False from by decide, hback, ihF k v fs' rest hb']
    · intro x xs rest hbe
      simp only [budgetElems] at hbe
      have hbx : budget x ≤ fuel := by omega
      cases xs with
      | nil =>
        have heq : printElems [x] ++ ']' :: rest = printJson x ++ ']' :: rest := by
          simp [printElems]
        simp only [parseElems]
        rw [heq, ihV x (']' :: rest) hbx (headNotDigit_cons ']' rest (by decide))]
        simp [skipWs_cons_not ']' rest (by decide)]
      | cons y ys =>
        have hbe' : budgetElems (y :: ys) ≤ fuel := by omega
        have heq : printElems (x :: y :: ys) ++ ']' :: rest
            = printJson x ++ ',' :: (printElems (y :: ys) ++ ']' :: rest) := by
          simp [printElems]
        simp only [parseElems]
        rw [heq, ihV x _ hbx (headNotDigit_cons ',' _ (by decide))]
        simp [skipWs_cons_not ',' _ (by decide), ihE y ys rest hbe']
    · intro k v fs rest hbf
      simp only [budgetFields] at hbf
      have hk : k.data.length + 1 ≤ fuel := by
        have hkd : k.data.length = k.length := rfl
        omega
      have hv : budget v ≤ fuel := by omega
      cases fs with
      | nil =>
        have heq : printFields [(k, v)] ++ rbraceChar :: rest
            = '"' :: (escapeString k.data
                ++ '"' :: (':' :: (printJson v ++ rbraceChar :: rest))) := by
          simp [printFields]
        simp only [parseFields]
        rw [heq]
        simp [skipWs, psb_round k.data fuel (':' :: (printJson v ++ rbraceChar :: rest)) hk,
          ihV v (rbraceChar :: rest) hv (headNotDigit_cons rbraceChar rest (by decide)),
          show isWsChar '"' = false from by decide,
          show isWsChar ':' = false from by decide,
          show isWsChar rbraceChar = false from by decide,
          show (rbraceChar = ',') = False from by decide, stringMk_data]
      | cons kv2 fs' =>
        obtain ⟨k2, v2⟩ := kv2
        have hbf' : budgetFields ((k2, v2) :: fs') ≤ fuel := by omega
        have heq : printFields ((k, v) :: (k2, v2) :: fs') ++ rbraceChar :: rest
            = '"' :: (escapeString k.data ++ '"' ::
                (':' :: (printJson v ++ ',' ::
                  (printFields ((k2, v2) :: fs') ++ rbraceChar :: rest)))) := by
          simp [printFields]
        simp only [parseFields]
        rw [heq]
        simp [skipWs,
          psb_round k.data fuel
            (':' :: (printJson v ++ ',' :: (printFields ((k2, v2) :: fs') ++ rbraceChar :: rest)))
            hk,
          ihV v (',' :: (printFields ((k2, v2) :: fs') ++ rbraceChar :: rest)) hv
            (headNotDigit_cons ',' _ (by decide)),
          show isWsChar '"' = false from by decide,
          show isWsChar ':' = false from by decide,
          show isWsChar ',' = false from by decide,
          ihF k2 v2 fs' rest hbf', stringMk_data]

/-- The parser fuel bound of a value is covered by the length of its
serialization plus one, along with the corresponding statements for
element lists and field lists. -/
theorem budget_le_print_all : ∀ n : Nat,
    (∀ j : Json, sizeOf j ≤ n → budget j ≤ (printJson j).length + 1) ∧
    (∀ xs : List Json, sizeOf xs ≤ n → budgetElems xs ≤ (printElems xs).length + 2) ∧
    (∀ fs : List (String × Json), sizeOf fs ≤ n →
      budgetFields fs ≤ (printFields fs).length + 2) := by
  intro n
  induction n with
  | zero =>
    refine ⟨fun j h => absurd h ?_, fun xs h => absurd h ?_, fun fs h => absurd h ?_⟩
    · cases j <;> simp
    · cases xs <;> simp
    · cases fs <;> simp
  | succ n ihn =>
    obtain ⟨ihJ, ihL, ihP⟩ := ihn
    refine ⟨?_, ?_, ?_⟩
    · intro j hsz
      cases j with
      | null => simp [budget, printJson]
      | bool b => cases b <;> simp [budget, printJson]
      | num m => simp [budget]
      | str s =>
        have := length_le_escapeString s.data
        simp only [budget, printJson, List.length_cons, List.length_append]
        omega
      | arr xs =>
        have hx : sizeOf xs ≤ n := by
          simp at hsz
          omega
        have := ihL xs hx
        simp only [budget, printJson, List.length_cons, List.length_append]
        omega
      | obj fs =>
        have hx : sizeOf fs ≤ n := by
          simp at hsz
          omega
        have := ihP fs hx
        simp only [budget, printJson, List.length_cons, List.length_append]
        omega
    · intro xs hsz
      cases xs with
      | nil => simp [budgetElems, printElems]
      | cons x xs' =>
        have hx : sizeOf x ≤ n := by
          simp at hsz
          omega
        have hxs : sizeOf xs' ≤ n := by
          simp at hsz
          omega
        have hbx := ihJ x hx
        cases xs' with
        | nil =>
          simp only [budgetElems, printElems]
          omega
        | cons y ys =>
          have hbe := ihL (y :: ys) hxs
          simp only [budgetElems] at hbe ⊢
          simp only [printElems, List.length_append, List.length_cons]
          omega
    · intro fs hsz
      cases fs with
      | nil => simp [budgetFields, printFields]
      | cons kv fs' =>
        obtain ⟨k, v⟩ := kv
        have hv : sizeOf v ≤ n := by
          simp at hsz
          omega
        have hfs : sizeOf fs' ≤ n := by
          simp at hsz
          omega
        have hbv := ihJ v hv
        have hesc := length_le_escapeString k.data
        cases fs' with
        | nil =>
          simp only [budgetFields, printFields, List.length_cons, List.length_append]
          omega
        | cons kv2 fs'' =>
          obtain ⟨k2, v2⟩ := kv2
          have hbp := ihP ((k2, v2) :: fs'') hfs
          simp only [budgetFields] at hbp ⊢
          simp only [printFields, List.length_cons, List.length_append]
          omega

/-- The parser fuel bound of a value is covered by the length of its
serialization plus one. -/
theorem budget_le_print (j : Json) : budget j ≤ (printJson j).length + 1 :=
  (budget_le_print_all (sizeOf j)).1 j (Nat.le_refl _)

/-- Parsing the full serialization of a JSON value recovers it: the
JSON.parse / JSON.stringify round trip. -/
theorem jsonParse_print (j : Json) : jsonParse (String.mk (printJson j)) = Except.ok j := by
  have h := (parse_print ((printJson j).length + 1)).1 j [] (budget_le_print j) rfl
  rw [List.append_nil] at h
  unfold jsonParse
  simp [h, skipWs]

/-- Looking a key up in a concatenation tries the left part first. -/
theorem lookup_append (l1 l2 : ObjMap) (k : String) :
    lookupKey (l1 ++ l2) k = (lookupKey l1 k).or (lookupKey l2 k) := by
  induction l1 with
  | nil => simp [lookupKey]
  | cons p l1' ih =>
    obtain ⟨k2, v⟩ := p
    by_cases h : k2 = k
    · simp [lookupKey, h]
    · simp [lookupKey, h, ih]

/-- Looking a key up after filtering by a key predicate. -/
theorem lookup_filter (b : ObjMap) (q : String → Bool) (k : String) :
    lookupKey (b.filter (fun p => q p.1)) k = if q k then lookupKey b k else none := by
  induction b with
  | nil => simp [lookupKey]
  | cons p b' ih =>
    obtain ⟨k2, v⟩ := p
    by_cases h : k2 = k
    · subst h
      by_cases hq : q k2
      · simp [List.filter_cons, hq, lookupKey]
      · simp only [List.filter_cons]
        simp [hq, ih]
    · by_cases hq : q k2
      · simp [List.filter_cons, hq, lookupKey, h, ih]
      · simp [List.filter_cons, hq, lookupKey, h, ih]

/-- Looking a key up in the overridden copy of a map. -/
theorem lookup_map_override (a b : ObjMap) (k : String) :
    lookupKey (a.map (fun p => (p.1, (lookupKey b p.1).getD p.2))) k
      = (lookupKey a k).map (fun v => (lookupKey b k).getD v) := by
  induction a with
  | nil => simp [lookupKey]
  | cons p a' ih =>
    obtain ⟨k2, v⟩ := p
    by_cases h : k2 = k
    · subst h
      simp [lookupKey]
    · simp [lookupKey, h, ih]

/-- Object spread is right-biased: a key of the spread takes its value
from the right map when present there, otherwise from the left map. -/
theorem lookup_spread (a b : ObjMap) (k : String) :
    lookupKey (spread a b) k = (lookupKey b k).or (lookupKey a k) := by
  unfold spread
  rw [lookup_append, lookup_map_override,
    lookup_filter b (fun s => (lookupKey a s).isNone) k]
  cases ha : lookupKey a k with
  | none => simp [ha]
  | some v =>
    cases hb : lookupKey b k with
    | none => simp
    | some w => simp

/-- Reading back the serialized form of one trace event recovers it. -/
theorem jsonToEvent_eventToJson (e : TraceEvent) : jsonToEvent (eventToJson e) = some e := by
  obtain ⟨ts, ty, d⟩ := e
  cases ty <;> rfl

/-- Reading back the serialized forms of a list of trace events recovers
the list. -/
theorem decodeEvents_map (es : List TraceEvent) : decodeEvents (es.map eventToJson) = some es := by
  induction es with
  | nil => rfl
  | cons e es' ih => simp [decodeEvents, jsonToEvent_eventToJson, ih]

/-- C9: for every recorded trace, exporting it to JSON and re-parsing the
exported string yields a sequence identical in length and in field
content (timestamp, kind, data) to the in-memory event list. -/
theorem C9_trace_roundtrip (t : Tracer) : reparseTrace t.exportToJson = some t.events := by
  unfold reparseTrace Tracer.exportToJson
  rw [jsonParse_print]
  simp [jsonToEvents, decodeEvents_map]

/-- C1: within one tool-call batch the context-variable deltas are merged
in input order with the later call's delta winning on conflicting keys,
on top of the run's prior context variables; in particular when the first
call sets a := 1 and the second sets a := 2, the final context variables
have a = 2. -/
theorem C1_batch_merge_order :
    (∀ ctx0 d1 d2 k, lookupKey (resultCtx (runC1 ctx0 d1 d2)) k
      = ((lookupKey d2 k).or ((lookupKey d1 k).or (lookupKey ctx0 k)))) ∧
    lookupKey (resultCtx (runC1 [] [("a", Json.num 1)] [("a", Json.num 2)])) "a"
      = some (Json.num 2) := by
  constructor
  · intro ctx0 d1 d2 k
    have hrun : resultCtx (runC1 ctx0 d1 d2) = spread ctx0 (spread (spread [] d1) d2) := rfl
    rw [hrun, lookup_spread, lookup_spread, lookup_spread]
    simp [lookupKey, Option.or_assoc, Option.or_none]
  · rfl

/-- C2 counterexample: in Scenario A (executor with no actions, model
returns plain text "Hello") the returned message list is
[user, assistant("Hello")]; its roles are not
[system, user, assistant] — the rendered system-instructions message is
not the first element of the returned messages. -/
theorem C2_counterexample :
    resultMessages runA = [userMsg "Hi", asstText "Hello"] ∧
    ¬((resultMessages runA).map Message.role = [Role.system, Role.user, Role.assistant]) :=
  ⟨rfl, by decide⟩

/-- C2 amended: in Scenario A the run does not throw and the final
message list is exactly [user, assistant("Hello")]; the rendered
system-instructions message is sent to the backend as the first element
of the single request, but is not part of the returned messages, and the
loop ends after one iteration (exactly one request is sent). -/
theorem C2_scenarioA :
    resultMessages runA = [userMsg "Hi", asstText "Hello"] ∧
    runA.state.sent
      = [{ model := "gpt-4o", messages := [sysMsg "You are a helpful agent.", userMsg "Hi"] }] ∧
    runThrew runA = false :=
  ⟨rfl, rfl, rfl⟩

/-- C3 counterexample: an action returns a value whose String(·) coercion
throws ("boom"); the run does not abort — the thrown error is caught by
the per-call handler and becomes a tool-result error message, and the run
returns normally. -/
theorem C3_counterexample :
    runThrew (runC3 "boom") = false ∧
    resultMessages (runC3 "boom")
      = [userMsg "Hi",
         ⟨Role.assistant, none, none, none, some [mkToolCall "call_1" "f" "\x7b\x7d"]⟩,
         ⟨Role.tool, some "函数 f 执行错误: boom", some "f", some "call_1", none⟩] :=
  ⟨rfl, rfl⟩

/-- C3 amended: when an action's return value is neither an ActionResult
nor a bare Executor and coercing it to a string fails, the thrown error
is caught by the generic per-call catch of the dispatch loop and
converted into a tool-result error message referencing the action's
name; the run continues and terminates normally rather than aborting. -/
theorem C3_coercion_failure_not_fatal (e : String) :
    runThrew (runC3 e) = false ∧
    resultMessages (runC3 e)
      = [userMsg "Hi",
         ⟨Role.assistant, none, none, none, some [mkToolCall "call_1" "f" "\x7b\x7d"]⟩,
         ⟨Role.tool, some ("函数 f 执行错误: " ++ e), some "f", some "call_1", none⟩] :=
  ⟨rfl, rfl⟩

/-- C6: when the dispatched action callable throws, the run completes
without throwing; the error is converted to an error string and the
resulting message list contains exactly one tool-role message, whose
content references the action's name and the failure. -/
theorem C6_action_throw_isolated (e : String) :
    runThrew (runC6 "f" e) = false ∧
    resultMessages (runC6 "f" e)
      = [userMsg "Hi",
         ⟨Role.assistant, none, none, none, some [mkToolCall "call_1" "f" "\x7b\x7d"]⟩,
         ⟨Role.tool, some ("函数 f 执行错误: " ++ e), some "f", some "call_1", none⟩] ∧
    (resultMessages (runC6 "f" e)).filter (fun m => m.role == Role.tool)
      = [⟨Role.tool, some ("函数 f 执行错误: " ++ e), some "f", some "call_1", none⟩] :=
  ⟨rfl, rfl, rfl⟩

/-- C7: a tool call naming an action absent from the executor's action
list yields a synthesized tool-result message mentioning the name and a
not-found indication; the run does not throw and terminates normally
after exactly one backend request. -/
theorem C7_unknown_action (n : String) :
    runThrew (runC7 n) = false ∧
    (resultMessages (runC7 n)).filter (fun m => m.role == Role.tool)
      = [⟨Role.tool, some ("函数 " ++ n ++ " 未找到"), some n, some "call_1", none⟩] ∧
    (runC7 n).state.sent.length = 1 :=
  ⟨rfl, rfl, rfl⟩

/-- C8 counterexample: on a plain-text model response with no tool
execution, the streaming variant increments the turn counter (to 1)
while the batched variant leaves it at 0 — the two variants do not run
the identical turn-counting state machine, and the streaming counter
increments without any tool-execution round. -/
theorem C8_counterexample :
    runC8stream.state.turns = 1 ∧ runC8stream.state.toolRounds = 0 ∧
    runC8batch.state.turns = 0 :=
  ⟨rfl, rfl, rfl⟩

/-- Recording a non-model_call event leaves the model_call count
unchanged. -/
theorem count_addEvent (t : Tracer) (ty : EventType) (d : Json)
    (h : ¬ty = EventType.model_call) :
    countModelCalls (t.addEvent ty d).events = countModelCalls t.events := by
  unfold Tracer.addEvent countModelCalls
  by_cases he : t.enabled
  · simp [he, List.filter_append, List.filter_cons, beq_iff_eq, h]
  · simp [he]

/-- When every user message passes validation, the validation pass
succeeds. -/
theorem validate_ok (agent : Agent) :
    ∀ (msgs : List Message) (tracer : Tracer), allUserValid agent msgs = true →
    ∃ t2, validateMessages agent msgs tracer = Except.ok t2 := by
  intro msgs
  induction msgs with
  | nil =>
    intro tracer _
    exact ⟨tracer, rfl⟩
  | cons m rest ih =>
    intro tracer h
    simp only [allUserValid, List.all_cons, Bool.and_eq_true] at h
    obtain ⟨h1, h2⟩ := h
    have h2' : allUserValid agent rest = true := h2
    by_cases hr : m.role = Role.user
    · cases hc : m.content with
      | none =>
        simp only [validateMessages, hr, if_true, hc]
        exact ih tracer h2'
      | some c =>
        by_cases hce : c = ""
        · simp only [validateMessages, hr, if_true, hc, hce]
          exact ih tracer h2'
        · have hv : (agent.validateInput c).valid = true := by
            simp only [hr, if_true, hc, hce, if_false] at h1
            simpa using h1
          simp only [validateMessages, hr, if_true, hc, hce, if_false, hv]
          exact ih _ h2'
    · simp only [validateMessages, hr, if_false]
      exact ih tracer h2'

/-- When some user message fails validation, the validation pass throws,
and the tracer at the throw point has the same number of model_call
events as before the pass. -/
theorem validate_err (agent : Agent) :
    ∀ (msgs : List Message) (tracer : Tracer), allUserValid agent msgs = false →
    ∃ e t2, validateMessages agent msgs tracer = Except.error (e, t2) ∧
      countModelCalls t2.events = countModelCalls tracer.events := by
  intro msgs
  induction msgs with
  | nil =>
    intro tracer h
    simp [allUserValid] at h
  | cons m rest ih =>
    intro tracer h
    simp only [allUserValid, List.all_cons, Bool.and_eq_false_iff] at h
    by_cases hr : m.role = Role.user
    · cases hc : m.content with
      | none =>
        have hrest : allUserValid agent rest = false := by
          rcases h with h1 | h2
          · simp [hr, hc] at h1
          · exact h2
        simp only [validateMessages, hr, if_true, hc]
        exact ih tracer hrest
      | some c =>
        by_cases hce : c = ""
        · have hrest : allUserValid agent rest = false := by
            rcases h with h1 | h2
            · simp [hr, hc, hce] at h1
            · exact h2
          simp only [validateMessages, hr, if_true, hc, hce]
          exact ih tracer hrest
        · by_cases hv : (agent.validateInput c).valid = true
          · have hrest : allUserValid agent rest = false := by
              rcases h with h1 | h2
              · simp [hr, hc, hce, hv] at h1
              · exact h2
            simp only [validateMessages, hr, if_true, hc, hce, if_false, hv]
            obtain ⟨e, t2, heq, hcnt⟩ := ih _ hrest
            refine ⟨e, t2, heq, ?_⟩
            rw [hcnt, count_addEvent _ _ _ (by decide)]
          · have hv' : (agent.validateInput c).valid = false := by
              simpa [Bool.not_eq_true] using hv
            simp only [validateMessages, hr, if_true, hc, hce, if_false, hv',
              Bool.false_eq_true]
            exact ⟨_, _, rfl, count_addEvent _ _ _ (by decide)⟩
    · have hrest : allUserValid agent rest = false := by
        rcases h with h1 | h2
        · simp [hr] at h1
        · exact h2
      simp only [validateMessages, hr, if_false]
      exact ih tracer hrest

/-- In the batched loop, the turn counter and the number of entered
tool-execution rounds advance together. -/
theorem runLoop_turns_rounds (p : Provider) (et : Bool) (mo : Option String) :
    ∀ (fuel : Nat) (st : RunState),
      ∃ d, (runLoop p et mo fuel st).state.turns = st.turns + d ∧
        (runLoop p et mo fuel st).state.toolRounds = st.toolRounds + d := by
  intro fuel
  induction fuel with
  | zero =>
    intro st
    exact ⟨0, by simp [runLoop, finishRun]⟩
  | succ f ih =>
    intro st
    have key : ∀ st2 : RunState, st2.turns = st.turns + 1 →
        st2.toolRounds = st.toolRounds + 1 →
        ∃ d, (runLoop p et mo f st2).state.turns = st.turns + d ∧
          (runLoop p et mo f st2).state.toolRounds = st.toolRounds + d := by
      intro st2 e1 e2
      obtain ⟨d, h1, h2⟩ := ih st2
      exact ⟨d + 1, by omega, by omega⟩
    simp only [runLoop]
    split
    · exact ⟨0, by simp⟩
    · split
      · split
        · exact key _ rfl rfl
        · exact ⟨1, by simp [finishRun], by simp [finishRun]⟩
      · exact ⟨0, by simp [finishRun], by simp [finishRun]⟩

/-- C8 corrected: in the batched variant the turn counter equals the
number of tool-execution rounds — it increments exactly once per tool
round and not for a plain model call — while the streaming variant
increments it once per loop iteration: on the plain-text streaming
scenario the counter reaches 1 with zero tool rounds. -/
theorem C8_turn_counter :
    (∀ (sw : Swarm) (agent : Agent) (messages : List Message) (ctx : ObjMap)
      (mt : Nat) (et : Bool) (mo : Option String),
      (Swarm.run sw agent messages ctx mt et mo).state.turns
        = (Swarm.run sw agent messages ctx mt et mo).state.toolRounds) ∧
    runC8stream.state.turns = 1 ∧ runC8stream.state.toolRounds = 0 := by
  refine ⟨?_, rfl, rfl⟩
  intro sw agent messages ctx mt et mo
  simp only [Swarm.run]
  have key : ∀ st0 : RunState, st0.turns = 0 → st0.toolRounds = 0 →
      (runLoop sw.createChatCompletion et mo mt st0).state.turns
        = (runLoop sw.createChatCompletion et mo mt st0).state.toolRounds := by
    intro st0 e1 e2
    obtain ⟨d, h1, h2⟩ := runLoop_turns_rounds sw.createChatCompletion et mo mt st0
    omega
  exact key _ rfl rfl

/-- A loop iteration whose validation pass fails aborts before that
iteration's backend call, preserving the model_call count. -/
theorem runLoop_invalid (p : Provider) (et : Bool) (mo : Option String)
    (f : Nat) (st : RunState) (h : allUserValid st.agent st.messages = false) :
    ∃ e t2, runLoop p et mo (f + 1) st
        = { result := Except.error e, state := { st with tracer := t2 } } ∧
      countModelCalls t2.events = countModelCalls st.tracer.events := by
  obtain ⟨e, t2, heq, hcnt⟩ := validate_err st.agent st.messages st.tracer h
  refine ⟨e, t2, ?_, hcnt⟩
  simp only [runLoop, heq]

/-- C4 amended: when input validation of a user message fails against the
run's initial executor (so the failure occurs on the first loop
iteration), the run aborts before any backend call: it throws, no request
is sent to the provider, and the trace contains zero model_call events.
(After a hand-off, re-validation against the new executor can fail in a
later iteration, after backend calls have been made.) -/
theorem C4_first_iteration_abort (sw : Swarm) (agent : Agent) (messages : List Message)
    (ctx : ObjMap) (mt : Nat) (et : Bool) (mo : Option String)
    (hinv : allUserValid agent messages = false) (hmt : 1 ≤ mt) :
    runThrew (Swarm.run sw agent messages ctx mt et mo) = true ∧
    countModelCalls (Swarm.run sw agent messages ctx mt et mo).state.tracer.events = 0 ∧
    (Swarm.run sw agent messages ctx mt et mo).state.sent = [] := by
  obtain ⟨f, rfl⟩ : ∃ f, mt = f + 1 := ⟨mt - 1, by omega⟩
  simp only [Swarm.run]
  have key : ∀ st0 : RunState, st0.agent = agent → st0.messages = messages →
      st0.sent = [] → countModelCalls st0.tracer.events = 0 →
      runThrew (runLoop sw.createChatCompletion et mo (f + 1) st0) = true ∧
      countModelCalls (runLoop sw.createChatCompletion et mo (f + 1) st0).state.tracer.events
        = 0 ∧
      (runLoop sw.createChatCompletion et mo (f + 1) st0).state.sent = [] := by
    intro st0 ha hm hs hc
    obtain ⟨e, t2, heq, hcnt⟩ := runLoop_invalid sw.createChatCompletion et mo f st0
      (by rw [ha, hm]; exact hinv)
    rw [heq]
    refine ⟨rfl, ?_, hs⟩
    rw [hcnt, hc]
  refine key _ rfl rfl rfl ?_
  rw [count_addEvent _ _ _ (by decide)]
  rfl

/-- With execute_tools = false the loop never enters the tool branch:
the invoked-callables instrumentation is untouched. -/
theorem runLoop_no_exec_invoked (p : Provider) (mo : Option String)
    (fuel : Nat) (st : RunState) :
    (runLoop p false mo fuel st).state.invoked = st.invoked := by
  cases fuel with
  | zero => simp [runLoop, finishRun]
  | succ f =>
    simp only [runLoop]
    split
    · simp
    · simp [finishRun, Bool.and_false]

/-- With execute_tools = false and a passing validation pass, the loop
makes exactly one backend request and terminates. -/
theorem runLoop_no_exec_sent (p : Provider) (mo : Option String)
    (f : Nat) (st : RunState) (h : allUserValid st.agent st.messages = true) :
    (runLoop p false mo (f + 1) st).state.sent
      = st.sent ++ [getChatCompletionParams st.agent st.messages st.ctx mo] := by
  obtain ⟨t2, heq⟩ := validate_ok st.agent st.messages st.tracer h
  simp only [runLoop, heq]
  simp [finishRun, Bool.and_false]

/-- C5: with executeTools = false, no action callable is ever invoked
even if the model requests tool calls, and (when the run proceeds past
validation with a positive turn budget) the run terminates after exactly
one backend call. -/
theorem C5_no_tool_execution (sw : Swarm) (agent : Agent) (messages : List Message)
    (ctx : ObjMap) (mt : Nat) (mo : Option String) :
    (Swarm.run sw agent messages ctx mt false mo).state.invoked = [] ∧
    (1 ≤ mt → allUserValid agent messages = true →
      (Swarm.run sw agent messages ctx mt false mo).state.sent.length = 1) := by
  constructor
  · simp only [Swarm.run]
    rw [runLoop_no_exec_invoked]
  · intro hmt hvalid
    obtain ⟨f, rfl⟩ : ∃ f, mt = f + 1 := ⟨mt - 1, by omega⟩
    simp only [Swarm.run]
    have key : ∀ st0 : RunState, st0.agent = agent → st0.messages = messages →
        st0.sent = [] →
        (runLoop sw.createChatCompletion false mo (f + 1) st0).state.sent.length = 1 := by
      intro st0 ha hm hs
      rw [runLoop_no_exec_sent sw.createChatCompletion mo f st0 (by rw [ha, hm]; exact hvalid),
        hs]
      rfl
    exact key _ rfl rfl rfl

/-- C5 witness: a concrete run whose model requests a tool call, with
executeTools = false — no callable runs and exactly one request is
sent. -/
theorem C5_witness :
    (Swarm.run swarmC5 agentC5 [userMsg "Hi"] [] 1 false none).state.invoked = [] ∧
    (Swarm.run swarmC5 agentC5 [userMsg "Hi"] [] 1 false none).state.sent.length = 1 :=
  ⟨(C5_no_tool_execution swarmC5 agentC5 [userMsg "Hi"] [] 1 none).1,
   (C5_no_tool_execution swarmC5 agentC5 [userMsg "Hi"] [] 1 none).2 (by decide) (by decide)⟩

/-- C4 witness: a concrete run whose executor rejects the user message —
the run throws with zero model_call events and zero backend requests. -/
theorem C4_witness :
    runThrew (Swarm.run swarmC5 agentStrict [userMsg "bad"] [] 1 true none) = true ∧
    countModelCalls
      (Swarm.run swarmC5 agentStrict [userMsg "bad"] [] 1 true none).state.tracer.events = 0 ∧
    (Swarm.run swarmC5 agentStrict [userMsg "bad"] [] 1 true none).state.sent = [] :=
  C4_first_iteration_abort swarmC5 agentStrict [userMsg "bad"] [] 1 true none
    (by decide) (by decide)

/-- C4 counterexample: a run that hands off to a stricter executor after
one model call; re-validation of the user message then fails, so the run
throws although one model_call event was recorded and one backend call
was made. -/
theorem C4_counterexample :
    runThrew runC4 = true ∧ countModelCalls runC4.state.tracer.events = 1 ∧
    runC4.state.sent.length = 1 :=
  ⟨rfl, rfl, rfl⟩

/-- The loop only appends messages: a successful result's message list
extends the entry state's message list. -/
theorem runLoop_prefix (p : Provider) (et : Bool) (mo : Option String) :
    ∀ (fuel : Nat) (st : RunState) (r : RunResponse),
      (runLoop p et mo fuel st).result = Except.ok r →
      ∃ suffix, r.messages = st.messages ++ suffix := by
  intro fuel
  induction fuel with
  | zero =>
    intro st r hr
    simp only [runLoop, finishRun] at hr
    injection hr with hr
    subst hr
    exact ⟨[], by simp⟩
  | succ f ih =>
    intro st r hr
    have key : ∀ (st2 : RunState) (pre : List Message),
        st2.messages = st.messages ++ pre →
        (runLoop p et mo f st2).result = Except.ok r →
        ∃ suffix, r.messages = st.messages ++ suffix := by
      intro st2 pre hpre hr2
      obtain ⟨s2, hs⟩ := ih st2 r hr2
      exact ⟨pre ++ s2, by rw [hs, hpre, List.append_assoc]⟩
    simp only [runLoop] at hr
    split at hr
    · simp at hr
    · split at hr
      · split at hr
        · exact key _ _ (by rw [List.append_assoc]) hr
        · simp only [finishRun] at hr
          injection hr with hr
          subst hr
          exact ⟨_, by change (st.messages ++ _) ++ _ = _; rw [List.append_assoc]⟩
      · simp only [finishRun] at hr
        injection hr with hr
        subst hr
        exact ⟨_, rfl⟩

/-- C10: the returned message list of a successful run contains the
caller's input messages, unmodified and in their original order, as a
prefix; the orchestrator works on copies of its array and map arguments
(value semantics in the model, matching the spreads at swarm.ts:72-73),
so the caller's inputs are unchanged. -/
theorem C10_input_prefix (sw : Swarm) (agent : Agent) (messages : List Message)
    (ctx : ObjMap) (mt : Nat) (et : Bool) (mo : Option String) (r : RunResponse)
    (hr : (Swarm.run sw agent messages ctx mt et mo).result = Except.ok r) :
    ∃ suffix, r.messages = messages ++ suffix := by
  simp only [Swarm.run] at hr
  exact runLoop_prefix sw.createChatCompletion et mo mt _ r hr

/-- C10 witness: the Scenario A run returns its input message followed by
the assistant reply. -/
theorem C10_witness :
    ∃ suffix, (resultMessages runA) = [userMsg "Hi"] ++ suffix := by
  obtain ⟨suffix, hs⟩ := C10_input_prefix
    (mkSwarm (constProvider { content := some "Hello", tool_calls := none }))
    agentA [userMsg "Hi"] [] 10 true none
    ⟨resultMessages runA, agentA, [], runA.state.tracer.events⟩ rfl
  exact ⟨suffix, hs⟩
